import Mathlib

/-!
# zmodopipe: the handshake procedures and the loops of `main`

A shallow embedding of `src/zmodopipe.c`: the ten login procedures
(`ConnectViaMobile`, `ConnectViaMedia`, `ConnectQT504`, ...), each run
against a scripted peer, with the properties of the frames they build and of
the values they return; and the two loops of `main`, the one of the parent
process (the Supervisor) and the one of a child process (a Worker), as step
functions over the system calls they make.

Conventions of the embedding

* A buffer is its memory: the byte stored at each offset (`Mem`).  A store
  keeps the low eight bits of the value, as a store to a `char` does.
* A C string (`globalArgs.username`, `globalArgs.password`, the host name) is
  the list of its bytes before the terminating NUL.
* A socket (`Sock`) is a scripted peer: the n-th `send` is answered by the
  n-th entry of `accept`, the n-th `recv` by the n-th entry of `replies`;
  every call is recorded in `log`.
* Output to the terminal (`printMessage`, `printBuffer`, the `beenHere`
  flags) is not part of the embedding: it never changes a frame or a result.
* A Worker (`Worker`, `step`, `run`) is its place in `main`, its two handles
  and the flag `g_cleanUp`; what the system calls return comes from outside
  (`Answer`), and a signal may arrive between any two steps (`Input`).
-/

namespace Zmodopipe

/-! ## Buffers -/

/-- Memory of a buffer: the byte at each offset. -/
abbrev Mem := Nat → Nat

/-- A buffer after `memset(&buf, 0, sizeof(buf))` or `= {0}`. -/
def zeroed : Mem := fun _ => 0

/-- The store `buf[i] = v` into a `char` array. -/
def poke (m : Mem) (i v : Nat) : Mem :=
  fun j => if j = i then v % 256 else m j

/-- The store `*(short*)&buf[i] = htons(v)`: the low sixteen bits of `v`,
most significant byte first. -/
def pokeShort (m : Mem) (i v : Nat) : Mem :=
  fun j => if j = i then (v / 256) % 256 else if j = i + 1 then v % 256 else m j

/-- The store `*(int*)&buf[i] = htonl(v)`: the low thirty-two bits of `v`,
most significant byte first. -/
def pokeLong (m : Mem) (i v : Nat) : Mem :=
  fun j =>
    if j = i then (v / 16777216) % 256
    else if j = i + 1 then (v / 65536) % 256
    else if j = i + 2 then (v / 256) % 256
    else if j = i + 3 then v % 256
    else m j

/-- The call `strcpy(buf + off, s)`: the bytes of `s`, then a NUL.  Nothing
bounds the copy: a string longer than its field runs on into the bytes that
follow it. -/
def strcpy (m : Mem) (off : Nat) (s : List Nat) : Mem :=
  fun j =>
    if off ≤ j ∧ j < off + s.length then s.getD (j - off) 0 % 256
    else if j = off + s.length then 0
    else m j

/-- The call `gethostname(buf + off, len)`: the host name and its NUL, cut
off after `len` bytes. -/
def gethostname (m : Mem) (off len : Nat) (name : List Nat) : Mem :=
  fun j =>
    if off ≤ j ∧ j < off + len ∧ j < off + name.length then name.getD (j - off) 0 % 256
    else if j = off + name.length ∧ j < off + len then 0
    else m j

/-- The first `len` bytes of a buffer, as handed to `send`. -/
def frame (m : Mem) (len : Nat) : List Nat := (List.range len).map m

/-- The bytes of a string literal of the source. -/
def cstr (s : String) : List Nat := s.toList.map Char.toNat

/-! ## Machine integers -/

/-- The value of `ntohl(header)` as an `int`, for the four bytes that `recv`
stored in `header`. -/
def ntohl (m : Mem) : Int :=
  let u : Nat := (m 0 % 256) * 16777216 + (m 1 % 256) * 65536 + (m 2 % 256) * 256 + m 3 % 256
  if u < 2147483648 then (u : Int) else (u : Int) - 4294967296

/-- An `int` passed for a `size_t` parameter (64-bit). -/
def sizeT (x : Int) : Nat := (x % 18446744073709551616).toNat

/-! ## The scripted peer -/

/-- What the peer does on one `recv`. -/
inductive Reply where
  | data (bytes : List Nat)
  | timeout
deriving DecidableEq, Repr

/-- One socket call: the frame handed to `send` or the length asked of
`recv`, and the value the call returned. -/
inductive Ev where
  | send (frame : List Nat) (ret : Int)
  | recv (len : Nat) (ret : Int)
deriving DecidableEq, Repr

/-- A connected socket with its scripted peer.  `accept` holds, per `send`,
how many bytes the peer takes at most (`none`: the call fails); `replies`
holds, per `recv`, what the peer delivers. -/
structure Sock where
  accept : List (Option Nat)
  replies : List Reply
  log : List Ev
deriving DecidableEq, Repr

/-- A freshly connected socket. -/
def connected (accept : List (Option Nat)) (replies : List Reply) : Sock :=
  { accept := accept, replies := replies, log := [] }

/-- The value `send` returns for `len` bytes: the number of bytes the peer
took, or -1 when the call fails or the peer is gone. -/
def sendRet (len : Nat) : List (Option Nat) → Int
  | some n :: _ => ((min n len : Nat) : Int)
  | _ => -1

/-- The call `send(sockFd, buf, len, 0)`. -/
def send (s : Sock) (buf : Mem) (len : Nat) : Int × Sock :=
  (sendRet len s.accept,
   { accept := s.accept.tail, replies := s.replies,
     log := s.log ++ [Ev.send (frame buf len) (sendRet len s.accept)] })

/-- The bytes one `recv` of `len` bytes gets from a reply. -/
def delivered (len : Nat) : List Reply → Option (List Nat)
  | Reply.data d :: _ => some (d.take len)
  | _ => none

/-- The value `recv` returns: the number of bytes stored, or -1 on a timeout
or when the peer sends nothing more. -/
def recvRet (len : Nat) (rs : List Reply) : Int :=
  match delivered len rs with
  | some got => (got.length : Int)
  | none => -1

/-- The buffer after `recv`: the delivered bytes from offset 0, the rest of
the buffer as it was. -/
def recvBuf (len : Nat) (rs : List Reply) (buf : Mem) : Mem :=
  match delivered len rs with
  | some got => fun j => if j < got.length then got.getD j 0 % 256 else buf j
  | none => buf

/-- The call `recv(sockFd, buf, len, 0)`: the value returned, the buffer
afterwards and the socket afterwards. -/
def recv (s : Sock) (buf : Mem) (len : Nat) : Int × Mem × Sock :=
  (recvRet len s.replies, recvBuf len s.replies buf,
   { accept := s.accept, replies := s.replies.tail,
     log := s.log ++ [Ev.recv len (recvRet len s.replies)] })

/-- The frames handed to `send`, in order. -/
def sentFrames : List Ev → List (List Nat)
  | [] => []
  | Ev.send f _ :: es => f :: sentFrames es
  | Ev.recv _ _ :: es => sentFrames es

/-- The values the `send` calls returned, in order. -/
def sendRets : List Ev → List Int
  | [] => []
  | Ev.send _ r :: es => r :: sendRets es
  | Ev.recv _ _ :: es => sendRets es

/-- The lengths asked of `recv`, in order. -/
def recvLens : List Ev → List Nat
  | [] => []
  | Ev.send _ _ :: es => recvLens es
  | Ev.recv n _ :: es => n :: recvLens es

/-- The values the `recv` calls returned, in order. -/
def recvRets : List Ev → List Int
  | [] => []
  | Ev.send _ _ :: es => recvRets es
  | Ev.recv _ r :: es => r :: recvRets es

/-! ## Configuration -/

/-- The `CameraModel` enumeration (`mobile = 1`, ..., `meye = 10`). -/
inductive CameraModel where
  | mobile
  | media
  | media_header
  | qt504
  | dvr8104_mobile
  | cnmclassic
  | visionari
  | swannmedia
  | swanndvr8
  | meye
deriving DecidableEq, Repr

/-- The `globalArgs` structure. -/
structure GlobalArgs where
  verbose : Bool
  pipeName : List Nat
  channel : List Bool
  hostname : List Nat
  port : Nat
  model : CameraModel
  username : List Nat
  password : List Nat
  timer : Int

/-- What a procedure finds on the machine it runs on: the local host name
(`gethostname`) and the contents of its uninitialised receive buffer. -/
structure Machine where
  hostName : List Nat
  junk : Mem

/-- The bytes of "admin", the default user name and password. -/
def admin : List Nat := [97, 100, 109, 105, 110]

/-- The defaults `main` sets before it reads the command line. -/
def defaultArgs : GlobalArgs :=
  { verbose := false, pipeName := [122, 109, 111, 100, 111],
    channel := List.replicate 16 false, hostname := [122, 109, 111, 100, 111],
    port := 0, model := CameraModel.media, username := admin, password := admin,
    timer := 0 }

/-- A machine called "dvrhost" whose stack holds zeroes. -/
def plainMachine : Machine :=
  { hostName := [100, 118, 114, 104, 111, 115, 116], junk := zeroed }

/-! ## ConnectViaMobile -/

/-- The size of `struct QSeeLoginMobile`: `val1`, `val2` (int), `val3`, `val4`
(short), `user[32]`, `pass[20]`, `ch`, `val5` (short). -/
def sizeofQSeeLoginMobile : Nat := 4 + 4 + 2 + 2 + 32 + 20 + 2 + 2

/-- The login buffer of `ConnectViaMobile`. -/
def mobileLoginBuf (g : GlobalArgs) (channel : Nat) : Mem :=
  let b := zeroed
  let b := pokeLong b 0 64             -- val1 = htonl(64)
  let b := pokeShort b 8 10496         -- val3 = htons(10496)
  let b := pokeShort b 10 14336        -- val4 = htons(14336)
  let b := pokeShort b 64 channel      -- ch = htons(channel)
  let b := strcpy b 12 g.username      -- strcpy(loginBuf.user, ...)
  strcpy b 44 g.password               -- strcpy(loginBuf.pass, ...)

/-- The procedure `ConnectViaMobile`. -/
def ConnectViaMobile (g : GlobalArgs) (mach : Machine) (sockFd : Sock) (channel : Nat) :
    Int × Sock :=
  let s1 := send sockFd (mobileLoginBuf g channel) sizeofQSeeLoginMobile
  -- Get header length (4 bytes); `header` is read only after all 4 arrived
  let r1 := recv s1.2 mach.junk 4
  if r1.1 ≠ 4 then (1, r1.2.2) else
  let header : Int := ntohl r1.2.1
  -- Get next section
  let r2 := recv r1.2.2 mach.junk (sizeT header)
  if r2.1 ≠ header then (1, r2.2.2) else
  -- Check login status
  if r2.2.1 16 ≠ 1 then (1, r2.2.2) else
  -- Read next sections
  let r3 := recv r2.2.2 r2.2.1 4
  if r3.1 ≠ 4 ∧ r3.2.1 3 ≠ 0 then (1, r3.2.2) else
  let header : Int := ((r3.2.1 3 % 256 : Nat) : Int)
  let r4 := recv r3.2.2 r3.2.1 (sizeT header)
  if r4.1 ≠ header then (1, r4.2.2) else
  -- Read another 27 bytes
  let r5 := recv r4.2.2 r4.2.1 27
  if r5.1 ≠ 27 then (1, r5.2.2) else
  (0, r5.2.2)

/-! ## ConnectViaMedia -/

/-- The size of `struct QSeeLoginMedia`: `valc[47]`, `user[8]`, `vals[26]`,
`pass[6]`, `filler[420]`. -/
def sizeofQSeeLoginMedia : Nat := 47 + 8 + 26 + 6 + 420

/-- The login buffer of `ConnectViaMedia`; `user` starts at 47 and `pass` at
47 + 8 + 26 = 81. -/
def mediaLoginBuf (g : GlobalArgs) (channel : Nat) : Mem :=
  let b := zeroed
  let b := poke b 10 0x01
  let b := pokeShort b 14 (0x035f + 2 ^ channel)   -- htons(0x035f + (1 << channel))
  let b := poke b 30 0x01
  let b := poke b 26 0x68
  let b := poke b 34 0x10
  let b := pokeShort b 37 (2 ^ channel)            -- htons(1 << channel)
  let b := poke b 42 1
  let b := poke b 46 1
  let b := strcpy b 47 g.username
  strcpy b 81 g.password

/-- The string literal "0123456" in memory. -/
def mediaHeader : Mem := strcpy zeroed 0 (cstr "0123456")

/-- The procedure `ConnectViaMedia`, for the models `media` and
`media_header`. -/
def ConnectViaMedia (g : GlobalArgs) (_mach : Machine) (sockFd : Sock) (channel : Nat) :
    Int × Sock :=
  -- Some models take a special header first
  let s0 := if g.model = CameraModel.media_header then (send sockFd mediaHeader 7).2 else sockFd
  let s1 := send s0 (mediaLoginBuf g channel) sizeofQSeeLoginMedia
  (0, s1.2)

/-! ## ConnectQT504 -/

/-- The size of `struct QSee504Login`: `vala[32]`, `user[8]`, `valb[28]`,
`pass[6]`, `valc[30]`, `host[8]`, `filler[32]`. -/
def sizeofQSee504Login : Nat := 32 + 8 + 28 + 6 + 30 + 8 + 32

/-- The login buffer of `ConnectQT504` (packet 1); `user` starts at 32,
`pass` at 68, `host` at 104 and `filler` at 112. -/
def qt504LoginBuf (g : GlobalArgs) (mach : Machine) : Mem :=
  let b := zeroed
  let b := poke b 0 0x31
  let b := poke b 1 0x31
  let b := poke b 2 0x31
  let b := poke b 3 0x31
  let b := poke b 4 0x88
  let b := poke b 8 0x01
  let b := poke b 9 0x01
  let b := poke b 12 0xff
  let b := poke b 13 0xff
  let b := poke b 14 0xff
  let b := poke b 15 0xff
  let b := poke b 16 0x04
  let b := poke b 20 0x78
  let b := poke b 24 0x03
  let b := strcpy b 32 g.username
  let b := strcpy b 68 g.password
  let b := gethostname b 104 8 mach.hostName
  let b := poke b (112 + 22) 0x50
  let b := poke b (112 + 23) 0x56
  let b := poke b (112 + 24) 0xc0
  let b := poke b (112 + 25) 0x08
  poke b (112 + 28) 0x04

/-- The buffer `suppLoginBuf` of `ConnectQT504` when packet 2 is sent. -/
def qt504SuppBuf : Mem :=
  let b := zeroed
  let b := poke b 0 0x31
  let b := poke b 1 0x31
  let b := poke b 2 0x31
  let b := poke b 3 0x31
  let b := poke b 4 0x50
  let b := poke b 8 0x03
  let b := poke b 9 0x04
  let b := poke b 12 0xf0
  let b := poke b 13 0xb7
  let b := poke b 14 0x3d
  let b := poke b 15 0x08
  let b := poke b 16 0x03
  let b := poke b 20 0x40
  let b := poke b 25 0xf8
  let b := poke b 32 0x01
  let b := poke b 33 0xf8
  let b := poke b 40 0x02
  let b := poke b 41 0xf8
  let b := poke b 48 0x03
  let b := poke b 49 0xf8
  let b := poke b 56 0x40
  let b := poke b 57 0xf8
  let b := poke b 60 0x97
  let b := poke b 61 0xf0
  let b := poke b 64 0x41
  poke b 65 0xf8

/-- The buffer `suppLoginBuf` of `ConnectQT504` when packet 3 is sent: the
buffer of packet 2, not cleared, with the new values stored over it. -/
def qt504ChannelBuf (channel : Nat) : Mem :=
  let b := qt504SuppBuf
  let b := poke b 0 0x31
  let b := poke b 1 0x31
  let b := poke b 2 0x31
  let b := poke b 3 0x31
  let b := poke b 4 0x34
  let b := poke b 8 0x01
  let b := poke b 9 0x02
  let b := poke b 20 0x24
  let b := pokeShort b 36 (2 ^ channel)    -- htons(1 << channel)
  pokeShort b 52 (2 ^ channel)             -- htons(1 << channel)

/-- The loop `while( (ret = recv(sockFd, recvBuf, sizeof(recvBuf), 0)) > 0 )`
of `ConnectQT504`, with `sizeof(recvBuf) = 532`; `fuel` bounds the number of
iterations. -/
def recvWhilePositive : Nat → Sock → Mem → Mem × Sock
  | 0, s, m => (m, s)
  | fuel + 1, s, m =>
    let r := recv s m 532
    if r.1 > 0 then recvWhilePositive fuel r.2.2 r.2.1 else (r.2.1, r.2.2)

/-- The procedure `ConnectQT504`.  Every `recv` of the loop that returns more
than 0 takes one reply of the script, so one more iteration than there are
replies ends the loop. -/
def ConnectQT504 (g : GlobalArgs) (mach : Machine) (sockFd : Sock) (channel : Nat) :
    Int × Sock :=
  -- Send the login packet (1 of 4)
  let s1 := send sockFd (qt504LoginBuf g mach) sizeofQSee504Login
  let r1 := recv s1.2 mach.junk 532
  -- (a receive of fewer than 532 bytes is reported and nothing else)
  -- Send the next packet (2 of 4)
  let s2 := send r1.2.2 qt504SuppBuf 88
  let l := recvWhilePositive (s2.2.replies.length + 1) s2.2 r1.2.1
  -- Send the next packet (3 of 4)
  let s3 := send l.2 (qt504ChannelBuf channel) 60
  let r3 := recv s3.2 l.1 124
  if r3.1 ≤ 0 then (1, r3.2.2) else
  (0, r3.2.2)

/-! ## ConnectDVR8104ViaMobile -/

/-- The size of `struct DVR8104MobileLogin`: `vala[60]`, `user[4]`,
`valb[28]`, `pass[6]`, `filler[18]`. -/
def sizeofDVR8104MobileLogin : Nat := 60 + 4 + 28 + 6 + 18

/-- The login buffer of `ConnectDVR8104ViaMobile`; `user` starts at 60,
`valb` at 64, `pass` at 92 and `filler` at 98. -/
def dvr8104LoginBuf (g : GlobalArgs) (channel : Nat) : Mem :=
  let b := zeroed
  let b := poke b 3 0x70
  let b := poke b 4 0x01
  let b := poke b 8 0x28
  let b := poke b 10 0x04
  let b := poke b 12 0x03
  let b := poke b 14 0x07
  let b := poke b 16 0x48
  let b := poke b 18 0x24
  let b := poke b 20 0x20
  let b := poke b 21 0x20
  let b := poke b 22 0x20
  let b := poke b 23 0x21
  let b := poke b 24 0x20
  let b := poke b 25 0x20
  let b := poke b 26 0x20
  let b := poke b 36 0x4d
  let b := poke b 37 0x4f
  let b := poke b 38 0x42
  let b := poke b 39 0x49
  let b := poke b 40 0x4c
  let b := poke b 41 0x45
  let b := poke b 56 0x29
  let b := poke b 58 0x38
  let b := poke b (64 + 0) 0x6e
  let b := poke b (64 + 27) 0x6e
  let b := poke b (98 + 10) 0x01
  let b := poke b (98 + 15) channel
  let b := strcpy b 60 g.username
  strcpy b 92 g.password

/-- The procedure `ConnectDVR8104ViaMobile`. -/
def ConnectDVR8104ViaMobile (g : GlobalArgs) (_mach : Machine) (sockFd : Sock)
    (channel : Nat) : Int × Sock :=
  let s1 := send sockFd (dvr8104LoginBuf g channel) sizeofDVR8104MobileLogin
  if s1.1 ≠ (sizeofDVR8104MobileLogin : Int) then (1, s1.2) else
  (0, s1.2)

/-! ## ConnectCnMClassic -/

/-- The size of `struct CnMClassicLogin`: `vala[40]`, `user[8]`, `valb[24]`,
`pass[6]`, `filler[422]`. -/
def sizeofCnMClassicLogin : Nat := 40 + 8 + 24 + 6 + 422

/-- The login buffer of `ConnectCnMClassic`; `user` starts at 40 and `pass`
at 72. -/
def cnmLoginBuf (g : GlobalArgs) (channel : Nat) : Mem :=
  let b := zeroed
  let b := poke b 3 0x01
  let b := poke b 7 0x03
  let b := poke b 8 0x0b
  let b := poke b 19 0x68
  let b := poke b 23 0x01
  let b := poke b 27 0x54
  let b := pokeShort b 30 (2 ^ channel)    -- htons(1 << channel)
  let b := strcpy b 40 g.username
  strcpy b 72 g.password

/-- The procedure `ConnectCnMClassic`. -/
def ConnectCnMClassic (g : GlobalArgs) (mach : Machine) (sockFd : Sock) (channel : Nat) :
    Int × Sock :=
  -- Send the login packet
  let s1 := send sockFd (cnmLoginBuf g channel) sizeofCnMClassicLogin
  -- do reading (1 of 2)
  let r1 := recv s1.2 mach.junk 8
  if r1.1 ≠ 8 ∧ r1.2.1 0 ≠ 1 then (1, r1.2.2) else
  -- do reading (2 of 2)
  let r2 := recv r1.2.2 r1.2.1 520
  if r2.1 ≠ 520 then (1, r2.2.2) else
  (0, r2.2.2)

/-! ## ConnectVisionari -/

/-- The size of `struct VisionariLogin`: `vala[60]`, `user[8]`, `valb[24]`,
`pass[6]`, `filler[18]`. -/
def sizeofVisionariLogin : Nat := 60 + 8 + 24 + 6 + 18

/-- The login buffer of `ConnectVisionari`; `user` starts at 60, `pass` at 92
and `filler` at 98. -/
def visionariLoginBuf (g : GlobalArgs) (channel : Nat) : Mem :=
  let b := zeroed
  let b := poke b 3 0x70
  let b := poke b 4 0x01
  let b := poke b 8 0x28
  let b := poke b 10 0x04
  let b := poke b 12 0x03
  let b := poke b 14 0x07
  let b := poke b 16 0x48
  let b := poke b 18 0x24
  let b := poke b 20 0x30
  let b := poke b 21 0x30
  let b := poke b 22 0x30
  let b := poke b 23 0x31
  let b := poke b 24 0x30
  let b := poke b 25 0x30
  let b := poke b 26 0x30
  let b := poke b 36 0x4d
  let b := poke b 37 0x4f
  let b := poke b 38 0x42
  let b := poke b 39 0x49
  let b := poke b 40 0x4c
  let b := poke b 41 0x45
  let b := poke b 56 0x29
  let b := poke b 58 0x38
  let b := poke b (98 + 10) 0x01
  let b := poke b (98 + 15) channel
  let b := strcpy b 60 g.username
  strcpy b 92 g.password

/-- The procedure `ConnectVisionari`. -/
def ConnectVisionari (g : GlobalArgs) (_mach : Machine) (sockFd : Sock) (channel : Nat) :
    Int × Sock :=
  let s1 := send sockFd (visionariLoginBuf g channel) sizeofVisionariLogin
  if s1.1 ≠ (sizeofVisionariLogin : Int) then (1, s1.2) else
  (0, s1.2)

/-! ## ConnectSwannViaMedia -/

/-- The size of `struct SwannLoginMedia`: `valc[47]`, `user[8]`, `vals[24]`,
`pass[6]`, `filler[422]`. -/
def sizeofSwannLoginMedia : Nat := 47 + 8 + 24 + 6 + 422

/-- The login buffer of `ConnectSwannViaMedia`; `user` starts at 47 and
`pass` at 47 + 8 + 24 = 79. -/
def swannMediaLoginBuf (g : GlobalArgs) (channel : Nat) : Mem :=
  let b := zeroed
  let b := poke b 10 0x01
  let b := if channel = 1 then pokeShort b 14 0x0324 else pokeShort b 14 (0x0324 + channel)
  let b := poke b 26 0x68
  let b := poke b 30 0x01
  let b := poke b 34 0x10
  let b := pokeShort b 37 (2 ^ channel)    -- htons(1 << channel)
  let b := poke b 42 1
  let b := poke b 46 1
  let b := strcpy b 47 g.username
  strcpy b 79 g.password

/-- The procedure `ConnectSwannViaMedia`. -/
def ConnectSwannViaMedia (g : GlobalArgs) (mach : Machine) (sockFd : Sock) (channel : Nat) :
    Int × Sock :=
  let s1 := send sockFd (swannMediaLoginBuf g channel) sizeofSwannLoginMedia
  -- before video stream, a small packet is sent
  let r1 := recv s1.2 mach.junk 8
  if r1.1 ≠ 8 then
    if r1.1 ≠ 16 then (1, r1.2.2) else (0, r1.2.2)
  else (0, r1.2.2)

/-! ## ConnectSwannDVR8 -/

/-- The size of `struct SwannDVR8`: `valc[20]`, `user[32]`, `pass[32]`,
`filler[4]`. -/
def sizeofSwannDVR8 : Nat := 20 + 32 + 32 + 4

/-- The login buffer of `ConnectSwannDVR8`; `user` starts at 20 and `pass`
at 52. -/
def swannDVR8LoginBuf (g : GlobalArgs) : Mem :=
  let b := zeroed
  let b := poke b 0 0xf0
  let b := poke b 1 0xde
  let b := poke b 2 0xbc
  let b := poke b 3 0x0a
  let b := poke b 4 0x01
  let b := poke b 8 0x44
  let b := poke b 12 0xff
  let b := poke b 13 0xff
  let b := poke b 14 0xff
  let b := poke b 15 0xff
  let b := strcpy b 20 g.username
  strcpy b 52 g.password

/-- The buffer `channelBuf` of `ConnectSwannDVR8`. -/
def swannDVR8ChannelBuf (channel : Nat) : Mem :=
  let b := zeroed
  let b := poke b 0 0xf0
  let b := poke b 1 0xde
  let b := poke b 2 0xbc
  let b := poke b 3 0x0a
  let b := poke b 4 0x03          -- 0x03 request video stream
  let b := poke b 8 0x0c
  let b := pokeShort b 11 channel -- htons(channel)
  let b := pokeShort b 19 channel -- htons(channel)
  let b := pokeShort b 23 channel -- htons(channel)
  poke b 28 0x01                  -- Streaming Quality

/-- The procedure `ConnectSwannDVR8`; `sizeof(recvBuf)` is 9686 and
`sizeof(channelBuf)` is 32. -/
def ConnectSwannDVR8 (g : GlobalArgs) (mach : Machine) (sockFd : Sock) (channel : Nat) :
    Int × Sock :=
  let s1 := send sockFd (swannDVR8LoginBuf g) sizeofSwannDVR8
  let r1 := recv s1.2 mach.junk 9686
  -- Send packet to open channel
  let s2 := send r1.2.2 (swannDVR8ChannelBuf channel) 32
  -- Verify send was successful
  if s2.1 ≠ 32 then (1, s2.2) else
  (0, s2.2)

/-! ## ConnectMEYE -/

/-- The size of `struct mEye`: `valc[18]`, `user[20]`, `pass[20]`. -/
def sizeofmEye : Nat := 18 + 20 + 20

/-- The buffer `initBuf` of `ConnectMEYE`. -/
def meyeInitBuf : Mem :=
  let b := zeroed
  let b := strcpy b 0 (cstr "GET /bubble/live?ch=0&stream=0 HTTP/1.1")
  let b := poke b 39 0x0d
  let b := poke b 40 0x0a
  let b := poke b 41 0x0d
  poke b 42 0x0a

/-- The login buffer of `ConnectMEYE`; `user` starts at 18 and `pass` at
38. -/
def meyeLoginBuf (g : GlobalArgs) : Mem :=
  let b := zeroed
  let b := poke b 0 0xaa
  let b := poke b 4 0x35
  let b := poke b 13 0x2c
  let b := strcpy b 18 g.username
  strcpy b 38 g.password

/-- The buffer `configBuf` of `ConnectMEYE`. -/
def meyeConfigBuf : Mem :=
  let b := zeroed
  let b := poke b 0 0xaa
  let b := poke b 4 0x0d
  let b := poke b 13 0x04
  poke b 14 0x01

/-- The buffer `channelBuf` of `ConnectMEYE`. -/
def meyeChannelBuf (channel : Nat) : Mem :=
  let b := zeroed
  let b := poke b 0 0xaa
  let b := poke b 4 0x15
  let b := poke b 5 0x0a
  let b := pokeShort b 9 channel   -- htons(channel)
  let b := poke b 14 0x01
  poke b 18 0x01

/-- The procedure `ConnectMEYE`; `sizeof(initBuf)` is 43, `sizeof(recvBuf)`
1024, `sizeof(configBuf)` 18 and `sizeof(channelBuf)` 26. -/
def ConnectMEYE (g : GlobalArgs) (mach : Machine) (sockFd : Sock) (channel : Nat) :
    Int × Sock :=
  -- send init packet
  let s1 := send sockFd meyeInitBuf 43
  let r1 := recv s1.2 mach.junk 1024
  -- send login packet
  let s2 := send r1.2.2 (meyeLoginBuf g) sizeofmEye
  let r2 := recv s2.2 r1.2.1 54
  -- send configure packet
  let s3 := send r2.2.2 meyeConfigBuf 18
  let r3 := recv s3.2 r2.2.1 22
  -- Send packet to open channel
  let s4 := send r3.2.2 (meyeChannelBuf channel) 26
  -- Verify send was successful, all 26 bytes
  if s4.1 ≠ 26 then (1, s4.2) else
  (0, s4.2)

/-! ## The table of procedures -/

/-- The table `pConnectFunc`, indexed by the camera model. -/
def pConnectFunc : CameraModel → GlobalArgs → Machine → Sock → Nat → Int × Sock
  | CameraModel.mobile => ConnectViaMobile
  | CameraModel.media => ConnectViaMedia
  | CameraModel.media_header => ConnectViaMedia
  | CameraModel.qt504 => ConnectQT504
  | CameraModel.dvr8104_mobile => ConnectDVR8104ViaMobile
  | CameraModel.cnmclassic => ConnectCnMClassic
  | CameraModel.visionari => ConnectVisionari
  | CameraModel.swannmedia => ConnectSwannViaMedia
  | CameraModel.swanndvr8 => ConnectSwannDVR8
  | CameraModel.meye => ConnectMEYE

/-! ## Vocabulary of the layout tables -/

/-- The four bytes of a 32-bit length header, most significant first. -/
def bigEndian32 (n : Nat) : List Nat :=
  [n / 16777216 % 256, n / 65536 % 256, n / 256 % 256, n % 256]

/-- The channel-dependent offsets that the layout tables document, per model
and per frame (frames counted from 0 in the order they are sent; for
`media_header` frame 0 is the 7-byte header and frame 1 the login). -/
def channelOffsets : CameraModel → Nat → List Nat
  | CameraModel.mobile, 0 => [64, 65]
  | CameraModel.media, 0 => [14, 15, 37, 38]
  | CameraModel.media_header, 1 => [14, 15, 37, 38]
  | CameraModel.qt504, 2 => [36, 37, 52, 53]
  | CameraModel.dvr8104_mobile, 0 => [113]
  | CameraModel.cnmclassic, 0 => [30, 31]
  | CameraModel.visionari, 0 => [113]
  | CameraModel.swannmedia, 0 => [14, 15, 37, 38]
  | CameraModel.swanndvr8, 1 => [11, 12, 19, 20, 23, 24]
  | CameraModel.meye, 3 => [9, 10]
  | _, _ => []

/-! ## Signals and system calls of `main` -/

/-- The signals that `main` and `sigHandler` name. -/
inductive Signal where
  | SIGTERM
  | SIGINT
  | SIGUSR1
  | SIGUSR2
  | SIGALRM
  | SIGPIPE
deriving DecidableEq, Repr

/-- The function `sigHandler`: the value it stores in `g_cleanUp`. -/
def sigHandler (sig : Signal) (_g_cleanUp : Int) : Int :=
  match sig with
  | Signal.SIGTERM => 1     -- g_cleanUp = true
  | Signal.SIGINT => 1
  | Signal.SIGUSR1 => 2
  | Signal.SIGALRM => 2
  | Signal.SIGPIPE => 2
  | Signal.SIGUSR2 => 3

/-- The signals for which a Worker runs `sigHandler`: `main` calls `sigaction`
for SIGPIPE, SIGTERM, SIGINT and SIGUSR2 before it forks, and the child calls it
for SIGUSR1.  No call of `sigaction` or `signal` names SIGALRM, which keeps its
default action and ends the process. -/
def workerHandles : Signal → Bool
  | Signal.SIGALRM => false
  | _ => true

/-- The values of `errno` that `main` tells apart, and some it does not. -/
inductive Errno where
  | EINPROGRESS
  | EAGAIN
  | EWOULDBLOCK
  | EINTR
  | EPIPE
  | ECONNREFUSED
deriving DecidableEq, Repr

/-- One system call of `main`, with its arguments and the value it returned. -/
inductive Call where
  | fork (ret : Int)
  | mkfifo (path : List Nat)
  | socket (fd : Int)
  | connect (fd : Int) (ret : Int)
  | handshake (ret : Int)
  | alarm (secs : Int)
  | sleep (secs : Nat)
  | recv (fd : Int) (ret : Int)
  | openSink (path : List Nat) (fd : Int)
  | write (fd : Int) (bytes : List Nat) (ret : Int)
  | close (fd : Int)
  | unlink (path : List Nat)
  | kill (pid : Int) (sig : Signal)
  | exitProcess (status : Int)
deriving DecidableEq, Repr

/-- Whether a call writes to the sink. -/
def Call.isWrite : Call → Bool
  | Call.write _ _ _ => true
  | _ => false

/-- The digits of `%i` for a channel index. -/
def decimal (n : Nat) : List Nat := (Nat.toDigits 10 n).map Char.toNat

/-- The path `sprintf(pipename, "/tmp/%s%i", globalArgs.pipeName, g_processCh)`. -/
def pipename (g : GlobalArgs) (g_processCh : Nat) : List Nat :=
  cstr "/tmp/" ++ g.pipeName ++ decimal g_processCh

/-- A `bool` read as an `int`. -/
def boolInt (b : Bool) : Int := if b then 1 else 0

/-- The last loop of `main`, "Kill all children (if any)": for every
`loopIdx` below `MAX_CHANNELS` with `globalArgs.channel[loopIdx] > 0` the call
`kill( globalArgs.channel[loopIdx], SIGTERM )`. -/
def killChildren (g : GlobalArgs) : List Call :=
  (List.range 16).filterMap fun loopIdx =>
    if boolInt (g.channel.getD loopIdx false) > 0
    then some (Call.kill (boolInt (g.channel.getD loopIdx false)) Signal.SIGTERM)
    else none

/-! ## The Worker: the part of `main` that a child process runs -/

/-- Where a Worker is in `main`. -/
inductive PC where
  | start         -- before `mkfifo`
  | loopTest      -- the test of `while( !g_cleanUp )`
  | connecting    -- `socket`, `setsockopt`, `connect`
  | handshaking   -- the call through `pConnectFunc`
  | streaming     -- the body of the `do` loop: `recv`, `open`, `write`
  | streamTest    -- the test of `while( sockFd != -1 && !g_cleanUp )`
  | afterStream   -- the test of `if( g_cleanUp >= 2 )`
  | resetClear    -- `g_cleanUp = false;` and the close of the socket
  | resetSink     -- the test of `if( g_cleanUp != 3 )` and the close of the sink
  | cleanup       -- after the loop: `close`, `close`, `unlink`, the end of `main`
  | done (status : Int)
  | killed
deriving DecidableEq, Repr

/-- The variables of a Worker. -/
structure Worker where
  pc : PC
  sockFd : Int
  outPipe : Int
  g_cleanUp : Int
deriving DecidableEq, Repr

/-- A Worker as the child process starts it. -/
def workerStart (g_cleanUp : Int) : Worker :=
  { pc := PC.start, sockFd := -1, outPipe := -1, g_cleanUp := g_cleanUp }

/-- What the world outside answers to the calls of one step of the Worker:
the descriptor `socket` or `open` returns, the result of `connect` and the
`errno` of a failed call, the peer of the handshake, the reply to the `recv` of
the stream, and how many bytes `write` takes (`none`: it returns -1). -/
structure Answer where
  fd : Int
  connectRet : Int
  errno : Errno
  accept : List (Option Nat)
  replies : List Reply
  reply : Reply
  written : Option Nat

/-- What happens next to a Worker: a signal arrives, or the Worker runs its
next step. -/
inductive Input where
  | signal (sig : Signal)
  | go (a : Answer)

/-- The bytes that `recv(sockFd, recvBuf, sizeof(recvBuf), 0)` stores for a
reply, `sizeof(recvBuf)` being 2048. -/
def streamFrame : Reply → List Nat
  | Reply.data d => (d.take 2048).map (fun b => b % 256)
  | Reply.timeout => []

/-- The value `write(outPipe, recvBuf, read)` returns. -/
def writeRet (read : Int) : Option Nat → Int
  | some n => min (n : Int) read
  | none => -1

/-- The body of the `do` loop of `main` once `recv` has returned more than 0:
the sink is opened when `outPipe` is -1, and the frame is written when the
sink is open. -/
def relay (g : GlobalArgs) (g_processCh : Nat) (w : Worker) (a : Answer) (read : Int) :
    Worker × List Call :=
  -- Open the pipe if it wasn't previously opened
  let outPipe : Int := if w.outPipe = -1 then a.fd else w.outPipe
  let opened : List Call :=
    if w.outPipe = -1 then [Call.openSink (pipename g g_processCh) a.fd] else []
  -- send to pipe
  if outPipe ≠ -1 then
    let retval := writeRet read a.written
    let wrote : List Call := [Call.write outPipe (streamFrame a.reply) retval]
    if retval = -1 then
      if a.errno = Errno.EAGAIN ∨ a.errno = Errno.EWOULDBLOCK then
        -- discard data: continue
        ({ w with outPipe := outPipe, pc := PC.streamTest },
          [Call.recv w.sockFd read] ++ opened ++ wrote)
      else
        -- reader closed the pipe
        ({ w with outPipe := -1, sockFd := -1, pc := PC.streamTest },
          [Call.recv w.sockFd read] ++ opened ++ wrote
            ++ [Call.close outPipe, Call.close w.sockFd])
    else
      ({ w with outPipe := outPipe, pc := PC.streamTest },
        [Call.recv w.sockFd read] ++ opened ++ wrote)
  else
    ({ w with outPipe := outPipe, pc := PC.streamTest }, [Call.recv w.sockFd read] ++ opened)

/-- One step of a Worker for channel `g_processCh`, and the system calls it
makes.  A signal runs `sigHandler`, or ends the process when the Worker has
no handler for it; a step of the program runs up to the next place where
`g_cleanUp` is read or written. -/
def step (g : GlobalArgs) (mach : Machine) (g_processCh : Nat) (w : Worker) :
    Input → Worker × List Call
  | Input.signal sig =>
    match w.pc with
    | PC.done _ => (w, [])
    | PC.killed => (w, [])
    | _ =>
      if workerHandles sig then ({ w with g_cleanUp := sigHandler sig w.g_cleanUp }, [])
      else ({ w with pc := PC.killed }, [])
  | Input.go a =>
    match w.pc with
    | PC.start => ({ w with pc := PC.loopTest }, [Call.mkfifo (pipename g g_processCh)])
    | PC.loopTest =>
      -- while( !g_cleanUp )
      if w.g_cleanUp = 0 then ({ w with pc := PC.connecting }, [])
      else ({ w with pc := PC.cleanup }, [])
    | PC.connecting =>
      -- sockFd = socket(...); retval = connect(sockFd, ...)
      if a.connectRet = -1 ∧ a.errno ≠ Errno.EINPROGRESS then
        ({ w with sockFd := -1, pc := PC.loopTest },
          [Call.socket a.fd, Call.connect a.fd a.connectRet, Call.close a.fd, Call.sleep 10])
      else
        ({ w with sockFd := a.fd, pc := PC.handshaking },
          [Call.socket a.fd, Call.connect a.fd a.connectRet])
    | PC.handshaking =>
      -- if( pConnectFunc[globalArgs.model](sockFd, g_processCh) != 0 )
      let r := pConnectFunc g.model g mach (connected a.accept a.replies) g_processCh
      if r.1 ≠ 0 then
        ({ w with sockFd := -1, pc := PC.done 1 },
          [Call.handshake r.1, Call.close w.sockFd, Call.exitProcess 1])
      else
        ({ w with pc := PC.streaming },
          [Call.handshake r.1] ++ (if g.timer ≠ 0 then [Call.alarm g.timer] else []))
    | PC.streaming =>
      -- read = recv(sockFd, recvBuf, sizeof(recvBuf), 0)
      let read := recvRet 2048 [a.reply]
      if read ≤ 0 then
        ({ w with sockFd := -1, pc := PC.afterStream },
          [Call.recv w.sockFd read, Call.close w.sockFd])
      else relay g g_processCh w a read
    | PC.streamTest =>
      -- while( sockFd != -1 && !g_cleanUp )
      if w.sockFd ≠ -1 ∧ w.g_cleanUp = 0 then ({ w with pc := PC.streaming }, [])
      else ({ w with pc := PC.afterStream }, [])
    | PC.afterStream =>
      -- if( g_cleanUp >= 2 )
      if w.g_cleanUp ≥ 2 then ({ w with pc := PC.resetClear }, [])
      else ({ w with pc := PC.loopTest }, [])
    | PC.resetClear =>
      -- g_cleanUp = false; if( sockFd != -1 ) close(sockFd); sockFd = -1;
      ({ w with g_cleanUp := 0, sockFd := -1, pc := PC.resetSink },
        if w.sockFd ≠ -1 then [Call.close w.sockFd] else [])
    | PC.resetSink =>
      -- if( g_cleanUp != 3 ) { if( outPipe != -1 ) close(outPipe); outPipe = -1; }
      if w.g_cleanUp ≠ 3 then
        ({ w with outPipe := -1, pc := PC.loopTest },
          if w.outPipe ≠ -1 then [Call.close w.outPipe] else [])
      else ({ w with pc := PC.loopTest }, [])
    | PC.cleanup =>
      -- close(outPipe); close(sockFd); unlink(pipename); ...; return 0;
      ({ w with pc := PC.done 0 },
        [Call.close w.outPipe, Call.close w.sockFd, Call.unlink (pipename g g_processCh)]
          ++ killChildren g ++ [Call.exitProcess 0])
    | PC.done _ => (w, [])
    | PC.killed => (w, [])

/-- A run of a Worker: the state it reaches and the system calls it made, in
order. -/
def run (g : GlobalArgs) (mach : Machine) (g_processCh : Nat) :
    List Input → Worker → Worker × List Call
  | [], w => (w, [])
  | i :: rest, w =>
    ((run g mach g_processCh rest (step g mach g_processCh w i).1).1,
     (step g mach g_processCh w i).2 ++ (run g mach g_processCh rest (step g mach g_processCh w i).1).2)

/-- An answer for the steps that ask nothing: the peer takes every byte of
every frame and delivers nothing. -/
def quiet : Answer :=
  { fd := 3, connectRet := 0, errno := Errno.EINTR, accept := [], replies := [],
    reply := Reply.timeout, written := none }

/-! ## The Supervisor: the part of `main` that the parent process runs -/

/-- The variables of the Supervisor: the table `g_childPids`, the flag
`g_cleanUp` and `pid`, the value `wait` returned last (0 before the first
`wait`). -/
structure Supervisor where
  g_childPids : List Int
  g_cleanUp : Int
  pid : Int
deriving DecidableEq, Repr

/-- How the `for` loop over the channels ends: in the parent, with the table
and the results of `fork` not yet used; in a child, which is the Worker of
channel `loopIdx`; or with `return 1` after a failed `fork`. -/
inductive Forked where
  | parent (g_childPids : List Int) (forks : List Int)
  | child (loopIdx : Nat)
  | failed
deriving DecidableEq, Repr

/-- The loop `for( loopIdx=0;loopIdx<MAX_CHANNELS;loopIdx++ )` of `main`, from
`loopIdx` on with `n` channels to go.  `forks` holds the values the calls of
`fork` return, in order (none left: `fork` fails). -/
def forkChannels (g : GlobalArgs) (pid : Int) :
    Nat → Nat → List Int → List Int → Forked
  | 0, _, forks, g_childPids => Forked.parent g_childPids forks
  | n + 1, loopIdx, forks, g_childPids =>
    if g.channel.getD loopIdx false = true then
      -- Always fork if we're starting up, or if the pid of the dead child matches
      let forking : Bool := pid = 0 ∨ g_childPids.getD loopIdx 0 = pid
      let pids := if forking then g_childPids.set loopIdx (forks.headD (-1)) else g_childPids
      let rest := if forking then forks.tail else forks
      if pids.getD loopIdx 0 = 0 then Forked.child loopIdx
      else if pids.getD loopIdx 0 = -1 then Forked.failed
      else forkChannels g pid n (loopIdx + 1) rest pids
    else forkChannels g pid n (loopIdx + 1) forks g_childPids

/-- The body of the `do` loop of the Supervisor, `MAX_CHANNELS` being 16. -/
def superviseBody (g : GlobalArgs) (s : Supervisor) (forks : List Int) : Forked × Int :=
  let flag := if s.pid ≠ 0 ∧ s.g_cleanUp = 2 then 0 else s.g_cleanUp
  (forkChannels g s.pid 16 0 forks s.g_childPids, flag)

/-- The test `while( (pid = wait(&status)) > 0  && g_cleanUp != true )`: the
Supervisor with the new `pid` when the loop goes on, `none` when it ends. -/
def superviseTest (s : Supervisor) (waited : Int) : Option Supervisor :=
  if waited > 0 ∧ s.g_cleanUp ≠ 1 then some { s with pid := waited } else none

/-- The end of `main` in the parent process, where `g_processCh` is -1: the
loop that kills the children and `return 0`. -/
def superviseEnd (g : GlobalArgs) (_s : Supervisor) : List Call :=
  killChildren g ++ [Call.exitProcess 0]

/-! ## Vocabulary of the claims on `main` -/

/-- The default configuration with channel 0 enabled (`-c 1`). -/
def oneChannel : GlobalArgs :=
  { defaultArgs with channel := [true] ++ List.replicate 15 false }

/-- The places of a Worker from which a write to the sink is reached only
through a handshake: all but the `do` loop of the stream. -/
def beforeStream : PC → Bool
  | PC.streaming => false
  | PC.streamTest => false
  | _ => true

/-- The states a Worker passes between a failed read and the next handshake
when no request arrives: the flag is 0 and the sink handle is `o`. -/
def reconnecting (o : Int) (w : Worker) : Prop :=
  w.g_cleanUp = 0 ∧ w.outPipe = o
  ∧ (w.pc = PC.afterStream ∨ w.pc = PC.loopTest ∨ w.pc = PC.connecting
      ∨ w.pc = PC.handshaking ∨ w.pc = PC.done 1)

/-- The channels `loopIdx`, ..., `loopIdx + n - 1` that are enabled and whose
recorded pid is `p`. -/
def deadChannels (g : GlobalArgs) (pids : List Int) (p : Int) (loopIdx n : Nat) : List Nat :=
  (List.range' loopIdx n).filter
    (fun j => g.channel.getD j false && decide (pids.getD j 0 = p))

/-! ## The default port -/

/-- The switch of `main` that sets `globalArgs.port` when no port was given
("Set up default values based on provided values (if any)"). -/
def defaultPort (g : GlobalArgs) : GlobalArgs :=
  if g.port = 0 then
    match g.model with
    | CameraModel.mobile => { g with port := 18600 }
    | CameraModel.media => { g with port := 9000 }
    | CameraModel.media_header => { g with port := 9000 }
    | CameraModel.cnmclassic => { g with port := 9000 }
    | CameraModel.swannmedia => { g with port := 9000 }
    | CameraModel.swanndvr8 => { g with port := 9000 }
    | CameraModel.meye => { g with port := 80 }
    | CameraModel.qt504 => { g with port := 6036 }
    | CameraModel.dvr8104_mobile => { g with port := 8888 }
    | CameraModel.visionari => { g with port := 1115 }
  else g

/-! ## Vocabulary of the claims on the stream -/

/-- The frame that the `recv` of the stream loop delivers in one step: none
outside the stream loop, none when `recv` returns 0 or less. -/
def frameRead (w : Worker) : Input → List (List Nat)
  | Input.go a =>
    if w.pc = PC.streaming ∧ 0 < recvRet 2048 [a.reply] then [streamFrame a.reply] else []
  | Input.signal _ => []

/-- The frames that the `recv` of the stream loop delivered during a run, in
the order they arrived. -/
def framesRead (g : GlobalArgs) (mach : Machine) (g_processCh : Nat) :
    List Input → Worker → List (List Nat)
  | [], _ => []
  | i :: rest, w =>
    frameRead w i ++ framesRead g mach g_processCh rest (step g mach g_processCh w i).1

/-- The byte strings handed to `write`, in order. -/
def framesWritten : List Call → List (List Nat)
  | [] => []
  | Call.write _ bytes _ :: cs => bytes :: framesWritten cs
  | _ :: cs => framesWritten cs

/-- The bytes the sink accepted: of every `write`, as many bytes as the call
returned (none when it returned -1). -/
def accepted : List Call → List Nat
  | [] => []
  | Call.write _ bytes ret :: cs => bytes.take ret.toNat ++ accepted cs
  | _ :: cs => accepted cs

/-- A sink that takes a frame whole or not at all, as a FIFO does for a
`write` of no more than PIPE_BUF bytes: whenever `write` does not return -1
the sink has room for the whole frame. -/
def wholeWrites (inputs : List Input) : Prop :=
  ∀ (a : Answer) (n : Nat), Input.go a ∈ inputs → a.written = some n →
    (streamFrame a.reply).length ≤ n

/-- The places of a Worker at which its socket handle is -1: before the first
connect, at the connect, in the connect loop and after the stream loop as
long as the flag is 0, and once the reset has closed the socket. -/
def socketFree (w : Worker) : Prop :=
  (w.pc = PC.start → w.sockFd = -1)
  ∧ (w.pc = PC.connecting → w.sockFd = -1)
  ∧ (w.pc = PC.loopTest → w.g_cleanUp = 0 → w.sockFd = -1)
  ∧ (w.pc = PC.afterStream → w.g_cleanUp = 0 → w.sockFd = -1)
  ∧ (w.pc = PC.resetSink → w.sockFd = -1)

/-! ## Lemmas on buffers, frames and the socket log -/

set_option maxRecDepth 100000

theorem frame_length (m : Mem) (n : Nat) : (frame m n).length = n := by
  simp [frame]

theorem frame_getD (m : Mem) (n i : Nat) :
    (frame m n).getD i 0 = if i < n then m i else 0 := by
  unfold frame
  by_cases h : i < n
  · simp [List.getD, h]
  · have hn : (List.range n)[i]? = none := List.getElem?_eq_none (by simp; omega)
    simp [List.getD, hn, h]

theorem sentFrames_append (a b : List Ev) :
    sentFrames (a ++ b) = sentFrames a ++ sentFrames b := by
  induction a with
  | nil => rfl
  | cons e es ih => cases e <;> simp [sentFrames, ih]

theorem sendRets_append (a b : List Ev) : sendRets (a ++ b) = sendRets a ++ sendRets b := by
  induction a with
  | nil => rfl
  | cons e es ih => cases e <;> simp [sendRets, ih]

theorem recvLens_append (a b : List Ev) : recvLens (a ++ b) = recvLens a ++ recvLens b := by
  induction a with
  | nil => rfl
  | cons e es ih => cases e <;> simp [recvLens, ih]

theorem recvRets_append (a b : List Ev) : recvRets (a ++ b) = recvRets a ++ recvRets b := by
  induction a with
  | nil => rfl
  | cons e es ih => cases e <;> simp [recvRets, ih]

theorem recvRet_data (len : Nat) (d : List Nat) (rs : List Reply) :
    recvRet len (Reply.data d :: rs) = ((min len d.length : Nat) : Int) := by
  simp [recvRet, delivered]

theorem recvBuf_data (len : Nat) (d : List Nat) (rs : List Reply) (buf : Mem) (j : Nat) :
    recvBuf len (Reply.data d :: rs) buf j
      = if j < min len d.length then d.getD j 0 % 256 else buf j := by
  simp only [recvBuf, delivered, List.length_take]
  by_cases h : j < min len d.length
  · have h1 : j < len := by omega
    have h2 : j < d.length := by omega
    simp [h, List.getElem?_take, h1, h2]
  · simp [h]

theorem ntohl_recv_bigEndian32 (n : Nat) (h : n < 2147483648) (rs : List Reply) (buf : Mem) :
    ntohl (recvBuf 4 (Reply.data (bigEndian32 n) :: rs) buf) = (n : Int) := by
  simp only [ntohl, recvBuf_data, bigEndian32]
  simp
  omega

theorem sizeT_ofNat (n : Nat) (h : n < 18446744073709551616) : sizeT (n : Int) = n := by
  unfold sizeT
  omega

/-! ## ConnectViaMobile against a scripted peer -/

/-- The whole run of `ConnectViaMobile` against a peer that sends the five
expected replies. -/
theorem ConnectViaMobile_run (g : GlobalArgs) (mach : Machine) (accept : List (Option Nat))
    (c N k : Nat) (body third kb last : List Nat)
    (hN1 : 17 ≤ N) (hN2 : N ≤ 128) (hk : k ≤ 128)
    (hbody : body.length = N) (h16 : body.getD 16 0 = 1)
    (hthird : third.length = 4) (h3 : third.getD 3 0 = k)
    (hkb : kb.length = k) (hlast : last.length = 27) :
    ConnectViaMobile g mach (connected accept
      [Reply.data (bigEndian32 N), Reply.data body, Reply.data third, Reply.data kb,
       Reply.data last]) c
    = (0, { accept := accept.tail, replies := [],
            log := [Ev.send (frame (mobileLoginBuf g c) 68) (sendRet 68 accept),
                    Ev.recv 4 4, Ev.recv N N, Ev.recv 4 4, Ev.recv k k, Ev.recv 27 27] }) := by
  have hh : ntohl (recvBuf 4 (Reply.data (bigEndian32 N) ::
      [Reply.data body, Reply.data third, Reply.data kb, Reply.data last]) mach.junk)
      = (N : Int) := ntohl_recv_bigEndian32 N (by omega) _ _
  have hs : sizeT (N : Int) = N := sizeT_ofNat N (by omega)
  have hk2 : k % 256 = k := by omega
  have hs2 : sizeT (k : Int) = k := sizeT_ofNat k (by omega)
  simp only [ConnectViaMobile, send, recv, connected, sizeofQSeeLoginMobile, List.tail_cons, hh,
    hs, recvRet_data, recvBuf_data]
  simp [-List.getD_eq_getElem?_getD, bigEndian32, hbody, hthird, hkb, hlast, h16, h3, hk2, hs2,
    hN1, show 16 < N by omega]

/-- C3: for every channel, every body length N with 17 <= N <= 128 and every
k <= 128, when the peer answers the receives of `ConnectViaMobile` with the 4
bytes of big-endian N, then N bytes whose byte 16 is 1, then 4 bytes whose
byte 3 is k, then k bytes, then 27 bytes, the procedure returns 0 after one
send of a 68-byte frame and exactly five receives (of 4, N, 4, k and 27
bytes, each returning as many bytes as asked). -/
theorem ConnectViaMobile_success (g : GlobalArgs) (mach : Machine)
    (accept : List (Option Nat)) (c N k : Nat) (body third kb last : List Nat)
    (hN1 : 17 ≤ N) (hN2 : N ≤ 128) (hk : k ≤ 128)
    (hbody : body.length = N) (h16 : body.getD 16 0 = 1)
    (hthird : third.length = 4) (h3 : third.getD 3 0 = k)
    (hkb : kb.length = k) (hlast : last.length = 27) :
    (ConnectViaMobile g mach (connected accept
      [Reply.data (bigEndian32 N), Reply.data body, Reply.data third, Reply.data kb,
       Reply.data last]) c).1 = 0
    ∧ (sentFrames (ConnectViaMobile g mach (connected accept
      [Reply.data (bigEndian32 N), Reply.data body, Reply.data third, Reply.data kb,
       Reply.data last]) c).2.log).map List.length = [68]
    ∧ recvLens (ConnectViaMobile g mach (connected accept
      [Reply.data (bigEndian32 N), Reply.data body, Reply.data third, Reply.data kb,
       Reply.data last]) c).2.log = [4, N, 4, k, 27]
    ∧ recvRets (ConnectViaMobile g mach (connected accept
      [Reply.data (bigEndian32 N), Reply.data body, Reply.data third, Reply.data kb,
       Reply.data last]) c).2.log = [4, (N : Int), 4, (k : Int), 27] := by
  rw [ConnectViaMobile_run g mach accept c N k body third kb last hN1 hN2 hk hbody h16 hthird h3
    hkb hlast]
  simp [sentFrames, recvLens, recvRets, frame_length]

/-- Witness of C3: channel 0, N = 20, k = 3. -/
theorem ConnectViaMobile_success_witness :
    (ConnectViaMobile defaultArgs plainMachine (connected [some 68]
      [Reply.data (bigEndian32 20), Reply.data (List.replicate 16 0 ++ [1, 0, 0, 0]),
       Reply.data [0, 0, 0, 3], Reply.data [7, 7, 7], Reply.data (List.replicate 27 9)]) 0).1 = 0
    ∧ recvLens (ConnectViaMobile defaultArgs plainMachine (connected [some 68]
      [Reply.data (bigEndian32 20), Reply.data (List.replicate 16 0 ++ [1, 0, 0, 0]),
       Reply.data [0, 0, 0, 3], Reply.data [7, 7, 7], Reply.data (List.replicate 27 9)]) 0).2.log
      = [4, 20, 4, 3, 27] :=
  have h := ConnectViaMobile_success defaultArgs plainMachine [some 68] 0 20 3
    (List.replicate 16 0 ++ [1, 0, 0, 0]) [0, 0, 0, 3] [7, 7, 7] (List.replicate 27 9)
    (by decide) (by decide) (by decide) (by decide) (by decide) (by decide) (by decide)
    (by decide) (by decide)
  ⟨h.1, h.2.2.1⟩

theorem mobile_first_short (g : GlobalArgs) (mach : Machine) (accept : List (Option Nat))
    (c : Nat) (d : List Nat) (rest : List Reply) (hd : d.length < 4) :
    (ConnectViaMobile g mach (connected accept (Reply.data d :: rest)) c).1 = 1 := by
  have h : ((min 4 d.length : Nat) : Int) ≠ 4 := by omega
  simp only [ConnectViaMobile, send, recv, connected, recvRet_data]
  simp [h, hd]

theorem mobile_second_short (g : GlobalArgs) (mach : Machine) (accept : List (Option Nat))
    (c N : Nat) (d : List Nat) (rest : List Reply) (hN : N ≤ 128) (hd : d.length < N) :
    (ConnectViaMobile g mach (connected accept
      (Reply.data (bigEndian32 N) :: Reply.data d :: rest)) c).1 = 1 := by
  have hh : ntohl (recvBuf 4 (Reply.data (bigEndian32 N) :: Reply.data d :: rest) mach.junk)
      = (N : Int) := ntohl_recv_bigEndian32 N (by omega) _ _
  have hs : sizeT (N : Int) = N := sizeT_ofNat N (by omega)
  have h : ((min N d.length : Nat) : Int) ≠ (N : Int) := by omega
  simp only [ConnectViaMobile, send, recv, connected, List.tail_cons, hh, hs, recvRet_data]
  simp [-List.getD_eq_getElem?_getD, bigEndian32, h, hd]

theorem mobile_bad_ack (g : GlobalArgs) (mach : Machine) (accept : List (Option Nat))
    (c N : Nat) (body : List Nat) (rest : List Reply)
    (hN1 : 17 ≤ N) (hN2 : N ≤ 128) (hbody : body.length = N)
    (h16 : body.getD 16 0 % 256 ≠ 1) :
    ConnectViaMobile g mach (connected accept
      (Reply.data (bigEndian32 N) :: Reply.data body :: rest)) c
    = (1, { accept := accept.tail, replies := rest,
            log := [Ev.send (frame (mobileLoginBuf g c) 68) (sendRet 68 accept),
                    Ev.recv 4 4, Ev.recv N N] }) := by
  have hh : ntohl (recvBuf 4 (Reply.data (bigEndian32 N) :: Reply.data body :: rest) mach.junk)
      = (N : Int) := ntohl_recv_bigEndian32 N (by omega) _ _
  have hs : sizeT (N : Int) = N := sizeT_ofNat N (by omega)
  simp only [ConnectViaMobile, send, recv, connected, sizeofQSeeLoginMobile, List.tail_cons, hh,
    hs, recvRet_data, recvBuf_data]
  simp [-List.getD_eq_getElem?_getD, bigEndian32, hbody, h16, show 16 < N by omega]

theorem mobile_fourth_short (g : GlobalArgs) (mach : Machine) (accept : List (Option Nat))
    (c N k : Nat) (body third d : List Nat) (rest : List Reply)
    (hN1 : 17 ≤ N) (hN2 : N ≤ 128) (hk : k ≤ 128)
    (hbody : body.length = N) (h16 : body.getD 16 0 = 1)
    (hthird : third.length = 4) (h3 : third.getD 3 0 = k) (hd : d.length < k) :
    (ConnectViaMobile g mach (connected accept
      (Reply.data (bigEndian32 N) :: Reply.data body :: Reply.data third :: Reply.data d :: rest))
      c).1 = 1 := by
  have hh : ntohl (recvBuf 4 (Reply.data (bigEndian32 N) :: Reply.data body :: Reply.data third
      :: Reply.data d :: rest) mach.junk) = (N : Int) := ntohl_recv_bigEndian32 N (by omega) _ _
  have hs : sizeT (N : Int) = N := sizeT_ofNat N (by omega)
  have hk2 : k % 256 = k := by omega
  have hs2 : sizeT (k : Int) = k := sizeT_ofNat k (by omega)
  have h : ((min k d.length : Nat) : Int) ≠ (k : Int) := by omega
  simp only [ConnectViaMobile, send, recv, connected, List.tail_cons, hh,
    hs, recvRet_data, recvBuf_data]
  simp [-List.getD_eq_getElem?_getD, bigEndian32, hbody, hthird, h16, h3, hk2, hs2,
    hN1, show 16 < N by omega, h, hd]

theorem mobile_fifth_short (g : GlobalArgs) (mach : Machine) (accept : List (Option Nat))
    (c N k : Nat) (body third kb d : List Nat) (rest : List Reply)
    (hN1 : 17 ≤ N) (hN2 : N ≤ 128) (hk : k ≤ 128)
    (hbody : body.length = N) (h16 : body.getD 16 0 = 1)
    (hthird : third.length = 4) (h3 : third.getD 3 0 = k) (hkb : kb.length = k)
    (hd : d.length < 27) :
    (ConnectViaMobile g mach (connected accept
      (Reply.data (bigEndian32 N) :: Reply.data body :: Reply.data third :: Reply.data kb
        :: Reply.data d :: rest)) c).1 = 1 := by
  have hh : ntohl (recvBuf 4 (Reply.data (bigEndian32 N) :: Reply.data body :: Reply.data third
      :: Reply.data kb :: Reply.data d :: rest) mach.junk) = (N : Int) :=
    ntohl_recv_bigEndian32 N (by omega) _ _
  have hs : sizeT (N : Int) = N := sizeT_ofNat N (by omega)
  have hk2 : k % 256 = k := by omega
  have hs2 : sizeT (k : Int) = k := sizeT_ofNat k (by omega)
  have h : ((min 27 d.length : Nat) : Int) ≠ 27 := by omega
  simp only [ConnectViaMobile, send, recv, connected, List.tail_cons, hh,
    hs, recvRet_data, recvBuf_data]
  simp [-List.getD_eq_getElem?_getD, bigEndian32, hbody, hthird, hkb, h16, h3, hk2, hs2,
    hN1, show 16 < N by omega, h, hd]

theorem cnm_second_short (g : GlobalArgs) (mach : Machine) (accept : List (Option Nat))
    (c : Nat) (a d : List Nat) (rest : List Reply) (hd : d.length < 520) :
    (ConnectCnMClassic g mach (connected accept (Reply.data a :: Reply.data d :: rest)) c).1
      = 1 := by
  have h : ((min 520 d.length : Nat) : Int) ≠ 520 := by omega
  simp only [ConnectCnMClassic, send, recv, connected, List.tail_cons, recvRet_data]
  split_ifs <;> simp_all

theorem swannMedia_short (g : GlobalArgs) (mach : Machine) (accept : List (Option Nat))
    (c : Nat) (d : List Nat) (rest : List Reply) (hd : d.length < 8) :
    (ConnectSwannViaMedia g mach (connected accept (Reply.data d :: rest)) c).1 = 1 := by
  have h : ¬ (min (8 : Int) (d.length : Int) = 16) := by omega
  simp only [ConnectSwannViaMedia, send, recv, connected, recvRet_data]
  simp [h, hd]

/-- C4: for every channel and every peer script whose first reply is the 4
bytes of big-endian N (17 <= N <= 128) and whose second reply is exactly N
bytes: when byte 16 of that body is not 1, `ConnectViaMobile` returns 1
(failure) and has performed the two receives (of 4 and of N bytes) and no
other. -/
theorem ConnectViaMobile_login_refused (g : GlobalArgs) (mach : Machine)
    (accept : List (Option Nat)) (c N : Nat) (body : List Nat) (rest : List Reply)
    (hN1 : 17 ≤ N) (hN2 : N ≤ 128) (hbody : body.length = N)
    (hbyte : body.getD 16 0 < 256) (h16 : body.getD 16 0 ≠ 1) :
    (ConnectViaMobile g mach (connected accept
      (Reply.data (bigEndian32 N) :: Reply.data body :: rest)) c).1 = 1
    ∧ recvLens (ConnectViaMobile g mach (connected accept
      (Reply.data (bigEndian32 N) :: Reply.data body :: rest)) c).2.log = [4, N]
    ∧ (ConnectViaMobile g mach (connected accept
      (Reply.data (bigEndian32 N) :: Reply.data body :: rest)) c).2.replies = rest := by
  have hm : body.getD 16 0 % 256 ≠ 1 := by
    rw [Nat.mod_eq_of_lt hbyte]
    exact h16
  rw [mobile_bad_ack g mach accept c N body rest hN1 hN2 hbody hm]
  simp [recvLens]

/-- Witness of C4: channel 0, N = 20, byte 16 of the body is 0, and the peer
has three more replies ready, which are never read. -/
theorem ConnectViaMobile_login_refused_witness :
    (ConnectViaMobile defaultArgs plainMachine (connected [some 68]
      (Reply.data (bigEndian32 20) :: Reply.data (List.replicate 20 0) ::
        [Reply.data [0, 0, 0, 3], Reply.data [7, 7, 7], Reply.data (List.replicate 27 9)])) 0).1
      = 1
    ∧ recvLens (ConnectViaMobile defaultArgs plainMachine (connected [some 68]
      (Reply.data (bigEndian32 20) :: Reply.data (List.replicate 20 0) ::
        [Reply.data [0, 0, 0, 3], Reply.data [7, 7, 7], Reply.data (List.replicate 27 9)])) 0).2.log
      = [4, 20] :=
  have h := ConnectViaMobile_login_refused defaultArgs plainMachine [some 68] 0 20
    (List.replicate 20 0)
    [Reply.data [0, 0, 0, 3], Reply.data [7, 7, 7], Reply.data (List.replicate 27 9)]
    (by decide) (by decide) (by decide) (by decide) (by decide)
  ⟨h.1, h.2.1⟩

/-- C1 as stated fails: against `ConnectQT504` the peer sends the expected
532 bytes, then nothing (which ends the loop), then one byte less than the 124
bytes of the last receive, and the procedure returns 0. -/
theorem ConnectQT504_accepts_short_reply :
    (ConnectQT504 defaultArgs plainMachine
      (connected [some 144, some 88, some 60]
        [Reply.data (List.replicate 532 0), Reply.timeout,
         Reply.data (List.replicate 123 0)]) 0).1 = 0
    ∧ recvLens (ConnectQT504 defaultArgs plainMachine
      (connected [some 144, some 88, some 60]
        [Reply.data (List.replicate 532 0), Reply.timeout,
         Reply.data (List.replicate 123 0)]) 0).2.log = [532, 532, 124]
    ∧ recvRets (ConnectQT504 defaultArgs plainMachine
      (connected [some 144, some 88, some 60]
        [Reply.data (List.replicate 532 0), Reply.timeout,
         Reply.data (List.replicate 123 0)]) 0).2.log = [532, -1, 123] := by
  decide

/-- C1, amended: for every channel, a reply that is one byte short makes the
procedure return 1 when it is the first, second, fourth or fifth reply to
`ConnectViaMobile`, the second (520-byte) reply to `ConnectCnMClassic`, or
the 8-byte reply to `ConnectSwannViaMedia`; and `ConnectViaMobile` returns 1
when byte 16 of the body is altered to a value other than 1.  The other
replies are the expected ones: 4 bytes of big-endian N, N bytes with byte 16
equal to 1, 4 bytes with byte 3 equal to k, k bytes, 27 bytes
(17 <= N <= 128, k <= 128) for the mobile port; 8 bytes for cnm-classic. -/
theorem short_reply_or_bad_ack_fails (g : GlobalArgs) (mach : Machine)
    (accept : List (Option Nat)) (c : Nat) :
    (∀ (d : List Nat) (rest : List Reply), d.length = 3 →
      (ConnectViaMobile g mach (connected accept (Reply.data d :: rest)) c).1 = 1)
    ∧ (∀ (N : Nat) (d : List Nat) (rest : List Reply), 17 ≤ N → N ≤ 128 → d.length + 1 = N →
      (ConnectViaMobile g mach (connected accept
        (Reply.data (bigEndian32 N) :: Reply.data d :: rest)) c).1 = 1)
    ∧ (∀ (N : Nat) (body : List Nat) (rest : List Reply), 17 ≤ N → N ≤ 128 →
      body.length = N → body.getD 16 0 < 256 → body.getD 16 0 ≠ 1 →
      (ConnectViaMobile g mach (connected accept
        (Reply.data (bigEndian32 N) :: Reply.data body :: rest)) c).1 = 1)
    ∧ (∀ (N k : Nat) (body third d : List Nat) (rest : List Reply), 17 ≤ N → N ≤ 128 →
      k ≤ 128 → body.length = N → body.getD 16 0 = 1 → third.length = 4 →
      third.getD 3 0 = k → d.length + 1 = k →
      (ConnectViaMobile g mach (connected accept
        (Reply.data (bigEndian32 N) :: Reply.data body :: Reply.data third :: Reply.data d
          :: rest)) c).1 = 1)
    ∧ (∀ (N k : Nat) (body third kb d : List Nat) (rest : List Reply), 17 ≤ N → N ≤ 128 →
      k ≤ 128 → body.length = N → body.getD 16 0 = 1 → third.length = 4 →
      third.getD 3 0 = k → kb.length = k → d.length = 26 →
      (ConnectViaMobile g mach (connected accept
        (Reply.data (bigEndian32 N) :: Reply.data body :: Reply.data third :: Reply.data kb
          :: Reply.data d :: rest)) c).1 = 1)
    ∧ (∀ (a d : List Nat) (rest : List Reply), a.length = 8 → d.length = 519 →
      (ConnectCnMClassic g mach (connected accept (Reply.data a :: Reply.data d :: rest)) c).1
        = 1)
    ∧ (∀ (d : List Nat) (rest : List Reply), d.length = 7 →
      (ConnectSwannViaMedia g mach (connected accept (Reply.data d :: rest)) c).1 = 1) := by
  refine ⟨?_, ?_, ?_, ?_, ?_, ?_, ?_⟩
  · intro d rest hd
    exact mobile_first_short g mach accept c d rest (by omega)
  · intro N d rest _ hN2 hd
    exact mobile_second_short g mach accept c N d rest hN2 (by omega)
  · intro N body rest hN1 hN2 hbody hbyte h16
    have hm : body.getD 16 0 % 256 ≠ 1 := by
      rw [Nat.mod_eq_of_lt hbyte]
      exact h16
    rw [mobile_bad_ack g mach accept c N body rest hN1 hN2 hbody hm]
  · intro N k body third d rest hN1 hN2 hk hbody h16 hthird h3 hd
    exact mobile_fourth_short g mach accept c N k body third d rest hN1 hN2 hk hbody h16 hthird
      h3 (by omega)
  · intro N k body third kb d rest hN1 hN2 hk hbody h16 hthird h3 hkb hd
    exact mobile_fifth_short g mach accept c N k body third kb d rest hN1 hN2 hk hbody h16
      hthird h3 hkb (by omega)
  · intro a d rest _ hd
    exact cnm_second_short g mach accept c a d rest (by omega)
  · intro d rest hd
    exact swannMedia_short g mach accept c d rest (by omega)

/-- Witness of the amended C1: channel 0; the last reply to `ConnectViaMobile`
has 26 bytes instead of 27, the second reply to `ConnectCnMClassic` 519
instead of 520, the reply to `ConnectSwannViaMedia` 7 instead of 8. -/
theorem short_reply_or_bad_ack_fails_witness :
    (ConnectViaMobile defaultArgs plainMachine (connected [some 68]
      (Reply.data (bigEndian32 20) :: Reply.data (List.replicate 16 0 ++ [1, 0, 0, 0]) ::
        Reply.data [0, 0, 0, 3] :: Reply.data [7, 7, 7] :: Reply.data (List.replicate 26 9)
        :: [])) 0).1 = 1
    ∧ (ConnectCnMClassic defaultArgs plainMachine (connected [some 500]
      (Reply.data (List.replicate 8 0) :: Reply.data (List.replicate 519 0) :: [])) 0).1 = 1
    ∧ (ConnectSwannViaMedia defaultArgs plainMachine (connected [some 507]
      (Reply.data (List.replicate 7 0) :: [])) 0).1 = 1 :=
  have h := short_reply_or_bad_ack_fails defaultArgs plainMachine
  ⟨(h [some 68] 0).2.2.2.2.1 20 3 (List.replicate 16 0 ++ [1, 0, 0, 0]) [0, 0, 0, 3] [7, 7, 7]
      (List.replicate 26 9) [] (by decide) (by decide) (by decide) (by decide) (by decide)
      (by decide) (by decide) (by decide) (by decide),
   (h [some 500] 0).2.2.2.2.2.1 (List.replicate 8 0) (List.replicate 519 0) [] (by decide)
      (by decide),
   (h [some 507] 0).2.2.2.2.2.2 (List.replicate 7 0) [] (by decide)⟩

/-! ## Sends whose result is checked -/

/-- C2 as stated fails: the only send of `ConnectViaMedia` transmits 506 of
the 507 bytes of the login frame and the procedure returns 0. -/
theorem ConnectViaMedia_ignores_short_send :
    (ConnectViaMedia defaultArgs plainMachine (connected [some 506] []) 0).1 = 0
    ∧ sendRets (ConnectViaMedia defaultArgs plainMachine (connected [some 506] []) 0).2.log
      = [506]
    ∧ (sentFrames (ConnectViaMedia defaultArgs plainMachine
        (connected [some 506] []) 0).2.log).map List.length = [507] := by
  decide

/-- C2, amended: the procedures that check a send return 1 whenever that send
returns anything but the size of its frame, whatever the receives return:
the only send of `ConnectDVR8104ViaMobile` and of `ConnectVisionari` (116
bytes), the second, channel-select send of `ConnectSwannDVR8` (32 bytes) and
the fourth, channel-select send of `ConnectMEYE` (26 bytes). -/
theorem checked_send_short_fails (g : GlobalArgs) (mach : Machine)
    (accept : List (Option Nat)) (replies : List Reply) (c : Nat) :
    ((sentFrames (ConnectDVR8104ViaMobile g mach (connected accept replies) c).2.log).map
        List.length = [116]
      ∧ sendRets (ConnectDVR8104ViaMobile g mach (connected accept replies) c).2.log
        = [sendRet 116 accept]
      ∧ (sendRet 116 accept ≠ 116 →
        (ConnectDVR8104ViaMobile g mach (connected accept replies) c).1 = 1))
    ∧ ((sentFrames (ConnectVisionari g mach (connected accept replies) c).2.log).map
        List.length = [116]
      ∧ sendRets (ConnectVisionari g mach (connected accept replies) c).2.log
        = [sendRet 116 accept]
      ∧ (sendRet 116 accept ≠ 116 →
        (ConnectVisionari g mach (connected accept replies) c).1 = 1))
    ∧ ((sentFrames (ConnectSwannDVR8 g mach (connected accept replies) c).2.log).map
        List.length = [88, 32]
      ∧ sendRets (ConnectSwannDVR8 g mach (connected accept replies) c).2.log
        = [sendRet 88 accept, sendRet 32 accept.tail]
      ∧ (sendRet 32 accept.tail ≠ 32 →
        (ConnectSwannDVR8 g mach (connected accept replies) c).1 = 1))
    ∧ ((sentFrames (ConnectMEYE g mach (connected accept replies) c).2.log).map
        List.length = [43, 58, 18, 26]
      ∧ sendRets (ConnectMEYE g mach (connected accept replies) c).2.log
        = [sendRet 43 accept, sendRet 58 accept.tail, sendRet 18 accept.tail.tail,
           sendRet 26 accept.tail.tail.tail]
      ∧ (sendRet 26 accept.tail.tail.tail ≠ 26 →
        (ConnectMEYE g mach (connected accept replies) c).1 = 1)) := by
  refine ⟨?_, ?_, ?_, ?_⟩
  · simp only [ConnectDVR8104ViaMobile, send, connected, sizeofDVR8104MobileLogin]
    split_ifs <;> simp_all [sentFrames, sendRets, frame_length]
  · simp only [ConnectVisionari, send, connected, sizeofVisionariLogin]
    split_ifs <;> simp_all [sentFrames, sendRets, frame_length]
  · simp only [ConnectSwannDVR8, send, recv, connected, sizeofSwannDVR8]
    split_ifs <;> simp_all [sentFrames, sendRets, frame_length]
  · simp only [ConnectMEYE, send, recv, connected, sizeofmEye]
    split_ifs <;> simp_all [sentFrames, sendRets, frame_length]

/-- Witness of the amended C2: the checked send transmits one byte less than
its frame. -/
theorem checked_send_short_fails_witness :
    (ConnectDVR8104ViaMobile defaultArgs plainMachine (connected [some 115] []) 0).1 = 1
    ∧ (ConnectVisionari defaultArgs plainMachine (connected [some 115] []) 0).1 = 1
    ∧ (ConnectSwannDVR8 defaultArgs plainMachine
        (connected [some 88, some 31] [Reply.data [0]]) 0).1 = 1
    ∧ (ConnectMEYE defaultArgs plainMachine
        (connected [some 43, some 58, some 18, some 25]
          [Reply.data [0], Reply.data [0], Reply.data [0]]) 0).1 = 1 :=
  ⟨(checked_send_short_fails defaultArgs plainMachine [some 115] [] 0).1.2.2 (by decide),
   (checked_send_short_fails defaultArgs plainMachine [some 115] [] 0).2.1.2.2 (by decide),
   (checked_send_short_fails defaultArgs plainMachine [some 88, some 31] [Reply.data [0]]
      0).2.2.1.2.2 (by decide),
   (checked_send_short_fails defaultArgs plainMachine [some 43, some 58, some 18, some 25]
      [Reply.data [0], Reply.data [0], Reply.data [0]] 0).2.2.2.2.2 (by decide)⟩

/-! ## The frames each procedure sends -/

theorem strcpy_of_lt {m : Mem} {off j : Nat} {s : List Nat} (h : j < off) :
    strcpy m off s j = m j := by
  have h1 : ¬ (off ≤ j ∧ j < off + s.length) := by omega
  have h2 : ¬ (j = off + s.length) := by omega
  simp [strcpy, h1, h2]

theorem strcpy_of_mem {m : Mem} {off j : Nat} {s : List Nat} (h1 : off ≤ j)
    (h2 : j < off + s.length) : strcpy m off s j = s.getD (j - off) 0 % 256 := by
  simp [strcpy, h1, h2]

theorem getD_lt_of_forall_lt (s : List Nat) (i : Nat) (h : ∀ b ∈ s, b < 256) :
    s.getD i 0 < 256 := by
  by_cases hi : i < s.length
  · rw [List.getD_eq_getElem _ _ hi]
    exact h _ (List.getElem_mem hi)
  · rw [List.getD_eq_default _ _ (by omega)]
    decide

theorem frame_getD_congr (m1 m2 : Mem) (n i : Nat) (h : m1 i = m2 i) :
    (frame m1 n).getD i 0 = (frame m2 n).getD i 0 := by
  simp only [frame_getD, h]

theorem mediaHeader_frame : frame mediaHeader 7 = [48, 49, 50, 51, 52, 53, 54] := by
  decide

theorem recvWhilePositive_sentFrames (n : Nat) (s : Sock) (m : Mem) :
    sentFrames (recvWhilePositive n s m).2.log = sentFrames s.log := by
  induction n generalizing s m with
  | zero => rfl
  | succ n ih =>
    simp only [recvWhilePositive]
    split_ifs
    · rw [ih]
      simp [recv, sentFrames_append, sentFrames]
    · simp [recv, sentFrames_append, sentFrames]

theorem ConnectViaMobile_sentFrames (g : GlobalArgs) (mach : Machine)
    (accept : List (Option Nat)) (replies : List Reply) (c : Nat) :
    sentFrames (ConnectViaMobile g mach (connected accept replies) c).2.log
      = [frame (mobileLoginBuf g c) 68] := by
  simp only [ConnectViaMobile, send, recv, connected, sizeofQSeeLoginMobile]
  split_ifs <;> simp [sentFrames]

theorem ConnectViaMedia_sentFrames (g : GlobalArgs) (mach : Machine)
    (accept : List (Option Nat)) (replies : List Reply) (c : Nat) :
    sentFrames (ConnectViaMedia g mach (connected accept replies) c).2.log
      = if g.model = CameraModel.media_header
        then [frame mediaHeader 7, frame (mediaLoginBuf g c) 507]
        else [frame (mediaLoginBuf g c) 507] := by
  simp only [ConnectViaMedia, send, connected, sizeofQSeeLoginMedia]
  split_ifs <;> simp [sentFrames]

theorem ConnectQT504_sentFrames (g : GlobalArgs) (mach : Machine)
    (accept : List (Option Nat)) (replies : List Reply) (c : Nat) :
    sentFrames (ConnectQT504 g mach (connected accept replies) c).2.log
      = [frame (qt504LoginBuf g mach) 144, frame qt504SuppBuf 88,
         frame (qt504ChannelBuf c) 60] := by
  simp only [ConnectQT504, sizeofQSee504Login]
  split_ifs <;>
    simp [send, recv, connected, sentFrames_append, sentFrames, recvWhilePositive_sentFrames]

theorem ConnectDVR8104ViaMobile_sentFrames (g : GlobalArgs) (mach : Machine)
    (accept : List (Option Nat)) (replies : List Reply) (c : Nat) :
    sentFrames (ConnectDVR8104ViaMobile g mach (connected accept replies) c).2.log
      = [frame (dvr8104LoginBuf g c) 116] := by
  simp only [ConnectDVR8104ViaMobile, send, connected, sizeofDVR8104MobileLogin]
  split_ifs <;> simp [sentFrames]

theorem ConnectCnMClassic_sentFrames (g : GlobalArgs) (mach : Machine)
    (accept : List (Option Nat)) (replies : List Reply) (c : Nat) :
    sentFrames (ConnectCnMClassic g mach (connected accept replies) c).2.log
      = [frame (cnmLoginBuf g c) 500] := by
  simp only [ConnectCnMClassic, send, recv, connected, sizeofCnMClassicLogin]
  split_ifs <;> simp [sentFrames]

theorem ConnectVisionari_sentFrames (g : GlobalArgs) (mach : Machine)
    (accept : List (Option Nat)) (replies : List Reply) (c : Nat) :
    sentFrames (ConnectVisionari g mach (connected accept replies) c).2.log
      = [frame (visionariLoginBuf g c) 116] := by
  simp only [ConnectVisionari, send, connected, sizeofVisionariLogin]
  split_ifs <;> simp [sentFrames]

theorem ConnectSwannViaMedia_sentFrames (g : GlobalArgs) (mach : Machine)
    (accept : List (Option Nat)) (replies : List Reply) (c : Nat) :
    sentFrames (ConnectSwannViaMedia g mach (connected accept replies) c).2.log
      = [frame (swannMediaLoginBuf g c) 507] := by
  simp only [ConnectSwannViaMedia, send, recv, connected, sizeofSwannLoginMedia]
  split_ifs <;> simp [sentFrames]

theorem ConnectSwannDVR8_sentFrames (g : GlobalArgs) (mach : Machine)
    (accept : List (Option Nat)) (replies : List Reply) (c : Nat) :
    sentFrames (ConnectSwannDVR8 g mach (connected accept replies) c).2.log
      = [frame (swannDVR8LoginBuf g) 88, frame (swannDVR8ChannelBuf c) 32] := by
  simp only [ConnectSwannDVR8, send, recv, connected, sizeofSwannDVR8]
  split_ifs <;> simp [sentFrames]

theorem ConnectMEYE_sentFrames (g : GlobalArgs) (mach : Machine)
    (accept : List (Option Nat)) (replies : List Reply) (c : Nat) :
    sentFrames (ConnectMEYE g mach (connected accept replies) c).2.log
      = [frame meyeInitBuf 43, frame (meyeLoginBuf g) 58, frame meyeConfigBuf 18,
         frame (meyeChannelBuf c) 26] := by
  simp only [ConnectMEYE, send, recv, connected, sizeofmEye]
  split_ifs <;> simp [sentFrames]

theorem mobileLoginBuf_agree (g : GlobalArgs) (c1 c2 i : Nat) (h : i ∉ [64, 65]) :
    mobileLoginBuf g c1 i = mobileLoginBuf g c2 i := by
  simp at h
  simp [mobileLoginBuf, strcpy, pokeShort, pokeLong, zeroed, h]

theorem mediaLoginBuf_agree (g : GlobalArgs) (c1 c2 i : Nat) (h : i ∉ [14, 15, 37, 38]) :
    mediaLoginBuf g c1 i = mediaLoginBuf g c2 i := by
  simp at h
  simp [mediaLoginBuf, strcpy, pokeShort, poke, zeroed, h]

theorem qt504ChannelBuf_agree (c1 c2 i : Nat) (h : i ∉ [36, 37, 52, 53]) :
    qt504ChannelBuf c1 i = qt504ChannelBuf c2 i := by
  simp at h
  simp [qt504ChannelBuf, pokeShort, poke, h]

theorem dvr8104LoginBuf_agree (g : GlobalArgs) (c1 c2 i : Nat) (h : i ∉ [113]) :
    dvr8104LoginBuf g c1 i = dvr8104LoginBuf g c2 i := by
  simp at h
  simp [dvr8104LoginBuf, strcpy, poke, h]

theorem cnmLoginBuf_agree (g : GlobalArgs) (c1 c2 i : Nat) (h : i ∉ [30, 31]) :
    cnmLoginBuf g c1 i = cnmLoginBuf g c2 i := by
  simp at h
  simp [cnmLoginBuf, strcpy, pokeShort, poke, zeroed, h]

theorem visionariLoginBuf_agree (g : GlobalArgs) (c1 c2 i : Nat) (h : i ∉ [113]) :
    visionariLoginBuf g c1 i = visionariLoginBuf g c2 i := by
  simp at h
  simp [visionariLoginBuf, strcpy, poke, h]

theorem swannMediaLoginBuf_agree (g : GlobalArgs) (c1 c2 i : Nat) (h : i ∉ [14, 15, 37, 38]) :
    swannMediaLoginBuf g c1 i = swannMediaLoginBuf g c2 i := by
  simp at h
  by_cases h1 : c1 = 1 <;> by_cases h2 : c2 = 1 <;>
    simp [swannMediaLoginBuf, strcpy, pokeShort, poke, zeroed, h, h1, h2]

theorem swannDVR8ChannelBuf_agree (c1 c2 i : Nat) (h : i ∉ [11, 12, 19, 20, 23, 24]) :
    swannDVR8ChannelBuf c1 i = swannDVR8ChannelBuf c2 i := by
  simp at h
  simp [swannDVR8ChannelBuf, pokeShort, poke, zeroed, h]

theorem meyeChannelBuf_agree (c1 c2 i : Nat) (h : i ∉ [9, 10]) :
    meyeChannelBuf c1 i = meyeChannelBuf c2 i := by
  simp at h
  simp [meyeChannelBuf, pokeShort, poke, zeroed, h]

theorem swannDVR8ChannelBuf_frame (c : Nat) (h : c < 16) : frame (swannDVR8ChannelBuf c) 32 =
    [0xF0, 0xDE, 0xBC, 0x0A, 0x03, 0, 0, 0, 0x0C, 0, 0, 0, c, 0, 0, 0,
     0, 0, 0, 0, c, 0, 0, 0, c, 0, 0, 0, 0x01, 0, 0, 0] := by
  have h1 : c / 256 % 256 = 0 := by omega
  have h2 : c % 256 = c := by omega
  simp [frame, List.range_succ, swannDVR8ChannelBuf, poke, pokeShort, zeroed, h1, h2]

/-- C5: for every model (the procedure `pConnectFunc` selects for
`globalArgs.model`), any two channels c1 and c2, the same credentials and
the same local host name, and whatever the two peers do: the procedure sends
the same number of frames of the same lengths, the frames agree at every
offset outside the channel-dependent offsets of `channelOffsets` (mobile
login 64-65; media and media-header login 14-15, 37-38; qt504 packet 3
36-37, 52-53; dvr8104-mobile and visionari login 113; cnm-classic login
30-31; swann-media login 14-15, 37-38; swann-dvr8 channel-select 11-12, 19-20,
23-24; meye channel-select 9-10; every other frame: none), and for the same
channel the frames are identical.  It holds for all channels and credentials,
in particular for channels 0..15 and credentials that fit their fields. -/
theorem frames_differ_only_in_channel_fields (g : GlobalArgs) (mach : Machine)
    (a1 a2 : List (Option Nat)) (r1 r2 : List Reply) (c1 c2 : Nat) :
    (sentFrames (pConnectFunc g.model g mach (connected a1 r1) c1).2.log).map List.length
      = (sentFrames (pConnectFunc g.model g mach (connected a2 r2) c2).2.log).map List.length
    ∧ (∀ k i : Nat, i ∉ channelOffsets g.model k →
        ((sentFrames (pConnectFunc g.model g mach (connected a1 r1) c1).2.log).getD k []).getD i 0
        = ((sentFrames (pConnectFunc g.model g mach (connected a2 r2) c2).2.log).getD k []).getD
            i 0)
    ∧ (c1 = c2 →
        sentFrames (pConnectFunc g.model g mach (connected a1 r1) c1).2.log
        = sentFrames (pConnectFunc g.model g mach (connected a2 r2) c2).2.log) := by
  cases hm : g.model
  · -- mobile
    simp only [pConnectFunc, ConnectViaMobile_sentFrames]
    refine ⟨by simp [frame_length], ?_, fun h => by rw [h]⟩
    intro k i hi
    rcases k with _ | k
    · exact frame_getD_congr _ _ _ _ (mobileLoginBuf_agree g c1 c2 i hi)
    · simp
  · -- media
    simp only [pConnectFunc, ConnectViaMedia_sentFrames, hm]
    refine ⟨by simp [frame_length], ?_, fun h => by rw [h]⟩
    intro k i hi
    rcases k with _ | k
    · exact frame_getD_congr _ _ _ _ (mediaLoginBuf_agree g c1 c2 i hi)
    · simp
  · -- media_header
    simp only [pConnectFunc, ConnectViaMedia_sentFrames, hm]
    refine ⟨by simp [frame_length], ?_, fun h => by rw [h]⟩
    intro k i hi
    rcases k with _ | _ | k
    · rfl
    · exact frame_getD_congr _ _ _ _ (mediaLoginBuf_agree g c1 c2 i hi)
    · simp
  · -- qt504
    simp only [pConnectFunc, ConnectQT504_sentFrames]
    refine ⟨by simp [frame_length], ?_, fun h => by rw [h]⟩
    intro k i hi
    rcases k with _ | _ | _ | k
    · rfl
    · rfl
    · exact frame_getD_congr _ _ _ _ (qt504ChannelBuf_agree c1 c2 i hi)
    · simp
  · -- dvr8104_mobile
    simp only [pConnectFunc, ConnectDVR8104ViaMobile_sentFrames]
    refine ⟨by simp [frame_length], ?_, fun h => by rw [h]⟩
    intro k i hi
    rcases k with _ | k
    · exact frame_getD_congr _ _ _ _ (dvr8104LoginBuf_agree g c1 c2 i hi)
    · simp
  · -- cnmclassic
    simp only [pConnectFunc, ConnectCnMClassic_sentFrames]
    refine ⟨by simp [frame_length], ?_, fun h => by rw [h]⟩
    intro k i hi
    rcases k with _ | k
    · exact frame_getD_congr _ _ _ _ (cnmLoginBuf_agree g c1 c2 i hi)
    · simp
  · -- visionari
    simp only [pConnectFunc, ConnectVisionari_sentFrames]
    refine ⟨by simp [frame_length], ?_, fun h => by rw [h]⟩
    intro k i hi
    rcases k with _ | k
    · exact frame_getD_congr _ _ _ _ (visionariLoginBuf_agree g c1 c2 i hi)
    · simp
  · -- swannmedia
    simp only [pConnectFunc, ConnectSwannViaMedia_sentFrames]
    refine ⟨by simp [frame_length], ?_, fun h => by rw [h]⟩
    intro k i hi
    rcases k with _ | k
    · exact frame_getD_congr _ _ _ _ (swannMediaLoginBuf_agree g c1 c2 i hi)
    · simp
  · -- swanndvr8
    simp only [pConnectFunc, ConnectSwannDVR8_sentFrames]
    refine ⟨by simp [frame_length], ?_, fun h => by rw [h]⟩
    intro k i hi
    rcases k with _ | _ | k
    · rfl
    · exact frame_getD_congr _ _ _ _ (swannDVR8ChannelBuf_agree c1 c2 i hi)
    · simp
  · -- meye
    simp only [pConnectFunc, ConnectMEYE_sentFrames]
    refine ⟨by simp [frame_length], ?_, fun h => by rw [h]⟩
    intro k i hi
    rcases k with _ | _ | _ | _ | k
    · rfl
    · rfl
    · rfl
    · exact frame_getD_congr _ _ _ _ (meyeChannelBuf_agree c1 c2 i hi)
    · simp

/-- Witness of C5: with the default configuration (model media) the login
frames for channels 0 and 5 agree at offset 47, which is not one of the
channel-dependent offsets 14, 15, 37, 38. -/
theorem frames_differ_only_in_channel_fields_witness :
    47 ∉ channelOffsets defaultArgs.model 0
    ∧ ((sentFrames (pConnectFunc defaultArgs.model defaultArgs plainMachine
          (connected [some 507] []) 0).2.log).getD 0 []).getD 47 0
      = ((sentFrames (pConnectFunc defaultArgs.model defaultArgs plainMachine
          (connected [] [Reply.timeout]) 5).2.log).getD 0 []).getD 47 0 :=
  ⟨by decide,
   (frames_differ_only_in_channel_fields defaultArgs plainMachine [some 507] []
      [] [Reply.timeout] 0 5).2.1 0 47 (by decide)⟩

/-! ## The frames of single procedures -/

/-- C6: for every channel c in 0..15, `ConnectSwannDVR8` sends the login frame
and then the channel-select frame, which is exactly the 32 bytes F0 DE BC 0A,
03 at offset 4, 0C at offset 8, big-endian c at offsets 11-12, 19-20 and
23-24, 01 at offset 28 and zero everywhere else; and the procedure returns 0
only if the send of that frame returned 32. -/
theorem ConnectSwannDVR8_channel_select (g : GlobalArgs) (mach : Machine)
    (accept : List (Option Nat)) (replies : List Reply) (c : Nat) (hc : c < 16) :
    sentFrames (ConnectSwannDVR8 g mach (connected accept replies) c).2.log
      = [frame (swannDVR8LoginBuf g) 88,
         [0xF0, 0xDE, 0xBC, 0x0A, 0x03, 0, 0, 0, 0x0C, 0, 0, 0, c, 0, 0, 0,
          0, 0, 0, 0, c, 0, 0, 0, c, 0, 0, 0, 0x01, 0, 0, 0]]
    ∧ sendRets (ConnectSwannDVR8 g mach (connected accept replies) c).2.log
      = [sendRet 88 accept, sendRet 32 accept.tail]
    ∧ ((ConnectSwannDVR8 g mach (connected accept replies) c).1 = 0
        → sendRet 32 accept.tail = 32) := by
  rw [← swannDVR8ChannelBuf_frame c hc]
  simp only [ConnectSwannDVR8, send, recv, connected, sizeofSwannDVR8]
  split_ifs <;> simp_all [sentFrames, sendRets]

/-- Witness of C6: channel 3 gives 3 at offsets 12, 20 and 24. -/
theorem ConnectSwannDVR8_channel_select_witness :
    3 < 16
    ∧ sentFrames (ConnectSwannDVR8 defaultArgs plainMachine
        (connected [some 88, some 32] [Reply.data [0]]) 3).2.log
      = [frame (swannDVR8LoginBuf defaultArgs) 88,
         [0xF0, 0xDE, 0xBC, 0x0A, 0x03, 0, 0, 0, 0x0C, 0, 0, 0, 3, 0, 0, 0,
          0, 0, 0, 0, 3, 0, 0, 0, 3, 0, 0, 0, 0x01, 0, 0, 0]] :=
  ⟨by decide,
   (ConnectSwannDVR8_channel_select defaultArgs plainMachine [some 88, some 32]
      [Reply.data [0]] 3 (by decide)).1⟩

/-- C7, on the code: for every channel `ConnectVisionari` sends exactly one
frame, the login frame, and returns 0 if and only if that send returned the
size of the frame; but the frame is `sizeof(struct VisionariLogin)` =
60 + 8 + 24 + 6 + 18 = 116 bytes long, not the 112 bytes that the comment on
the structure gives. -/
theorem ConnectVisionari_frame_is_116_bytes (g : GlobalArgs) (mach : Machine)
    (accept : List (Option Nat)) (replies : List Reply) (c : Nat) :
    sentFrames (ConnectVisionari g mach (connected accept replies) c).2.log
      = [frame (visionariLoginBuf g c) 116]
    ∧ (frame (visionariLoginBuf g c) 116).length = 116
    ∧ sendRets (ConnectVisionari g mach (connected accept replies) c).2.log
      = [sendRet 116 accept]
    ∧ ((ConnectVisionari g mach (connected accept replies) c).1 = 0
        ↔ sendRet 116 accept = 116) := by
  simp only [ConnectVisionari, send, connected, sizeofVisionariLogin]
  split_ifs <;> simp_all [sentFrames, sendRets, frame_length]

/-- C8: for every channel c in 0..15 the login frame of
`ConnectSwannViaMedia` is 507 bytes long, its big-endian 16-bit field at
offsets 14-15 is 0x0324 when c = 1 and 0x0324 + c otherwise, and its
big-endian 16-bit field at offsets 37-38 is 1 << c. -/
theorem ConnectSwannViaMedia_channel_fields (g : GlobalArgs) (mach : Machine)
    (accept : List (Option Nat)) (replies : List Reply) (c : Nat) (hc : c < 16) :
    sentFrames (ConnectSwannViaMedia g mach (connected accept replies) c).2.log
      = [frame (swannMediaLoginBuf g c) 507]
    ∧ (frame (swannMediaLoginBuf g c) 507).length = 507
    ∧ (frame (swannMediaLoginBuf g c) 507).getD 14 0 * 256
        + (frame (swannMediaLoginBuf g c) 507).getD 15 0
        = (if c = 1 then 0x0324 else 0x0324 + c)
    ∧ (frame (swannMediaLoginBuf g c) 507).getD 37 0 * 256
        + (frame (swannMediaLoginBuf g c) 507).getD 38 0 = 2 ^ c := by
  refine ⟨?_, frame_length _ _, ?_, ?_⟩
  · simp only [ConnectSwannViaMedia, send, recv, connected, sizeofSwannLoginMedia]
    split_ifs <;> simp [sentFrames]
  · simp only [frame_getD]
    by_cases h1 : c = 1
    · subst h1
      simp [swannMediaLoginBuf, strcpy_of_lt, poke, pokeShort, zeroed]
    · simp [swannMediaLoginBuf, strcpy_of_lt, poke, pokeShort, zeroed, h1]
      omega
  · simp only [frame_getD]
    interval_cases c <;> simp [swannMediaLoginBuf, strcpy_of_lt, poke, pokeShort, zeroed]

/-- Witness of C8: channel 1 carries 0x0324 at offsets 14-15, as channel 0
does, and 2 at offsets 37-38. -/
theorem ConnectSwannViaMedia_channel_fields_witness :
    1 < 16
    ∧ (frame (swannMediaLoginBuf defaultArgs 1) 507).getD 14 0 * 256
        + (frame (swannMediaLoginBuf defaultArgs 1) 507).getD 15 0 = 0x0324
    ∧ (frame (swannMediaLoginBuf defaultArgs 1) 507).getD 37 0 * 256
        + (frame (swannMediaLoginBuf defaultArgs 1) 507).getD 38 0 = 2 :=
  have h := ConnectSwannViaMedia_channel_fields defaultArgs plainMachine [] [] 1 (by decide)
  ⟨by decide, h.2.2.1, h.2.2.2⟩

/-- C9: for every channel c in 0..15, a user name of at most 7 bytes and a
password of at most 5 bytes, `ConnectViaMedia` sends the login frame only
(model media-header: the 7 bytes "0123456" and then the login frame); the
login frame is 507 bytes long with 01 at offset 10, big-endian
0x035F + 2^c at 14-15, 68 at 26, 01 at 30, 10 at 34, big-endian 2^c at 37-38,
01 at 42 and at 46, the user name from offset 47, the password from offset 81
and zero at every other offset. -/
theorem ConnectViaMedia_login_frame (g : GlobalArgs) (mach : Machine)
    (accept : List (Option Nat)) (replies : List Reply) (c : Nat)
    (hc : c < 16) (hu : g.username.length ≤ 7) (hp : g.password.length ≤ 5)
    (hub : ∀ b ∈ g.username, b < 256) (hpb : ∀ b ∈ g.password, b < 256) :
    sentFrames (ConnectViaMedia g mach (connected accept replies) c).2.log
      = (if g.model = CameraModel.media_header
         then [[48, 49, 50, 51, 52, 53, 54], frame (mediaLoginBuf g c) 507]
         else [frame (mediaLoginBuf g c) 507])
    ∧ (frame (mediaLoginBuf g c) 507).length = 507
    ∧ (frame (mediaLoginBuf g c) 507).getD 10 0 = 0x01
    ∧ (frame (mediaLoginBuf g c) 507).getD 14 0 = (0x035F + 2 ^ c) / 256
    ∧ (frame (mediaLoginBuf g c) 507).getD 15 0 = (0x035F + 2 ^ c) % 256
    ∧ (frame (mediaLoginBuf g c) 507).getD 26 0 = 0x68
    ∧ (frame (mediaLoginBuf g c) 507).getD 30 0 = 0x01
    ∧ (frame (mediaLoginBuf g c) 507).getD 34 0 = 0x10
    ∧ (frame (mediaLoginBuf g c) 507).getD 37 0 = 2 ^ c / 256
    ∧ (frame (mediaLoginBuf g c) 507).getD 38 0 = 2 ^ c % 256
    ∧ (frame (mediaLoginBuf g c) 507).getD 42 0 = 0x01
    ∧ (frame (mediaLoginBuf g c) 507).getD 46 0 = 0x01
    ∧ (∀ i, i < g.username.length →
        (frame (mediaLoginBuf g c) 507).getD (47 + i) 0 = g.username.getD i 0)
    ∧ (∀ i, i < g.password.length →
        (frame (mediaLoginBuf g c) 507).getD (81 + i) 0 = g.password.getD i 0)
    ∧ (∀ i, i ∉ [10, 14, 15, 26, 30, 34, 37, 38, 42, 46] →
        ¬ (47 ≤ i ∧ i < 47 + g.username.length) →
        ¬ (81 ≤ i ∧ i < 81 + g.password.length) →
        (frame (mediaLoginBuf g c) 507).getD i 0 = 0) := by
  have h2c : 2 ^ c ≤ 32768 := by
    interval_cases c <;> norm_num
  refine ⟨?_, frame_length _ _, ?_, ?_, ?_, ?_, ?_, ?_, ?_, ?_, ?_, ?_, ?_, ?_, ?_⟩
  · rw [ConnectViaMedia_sentFrames, mediaHeader_frame]
  · simp only [frame_getD]
    simp [mediaLoginBuf, strcpy_of_lt, poke, pokeShort, zeroed]
  · simp only [frame_getD]
    simp [mediaLoginBuf, strcpy_of_lt, poke, pokeShort, zeroed]
    omega
  · simp only [frame_getD]
    simp [mediaLoginBuf, strcpy_of_lt, poke, pokeShort, zeroed]
  · simp only [frame_getD]
    simp [mediaLoginBuf, strcpy_of_lt, poke, pokeShort, zeroed]
  · simp only [frame_getD]
    simp [mediaLoginBuf, strcpy_of_lt, poke, pokeShort, zeroed]
  · simp only [frame_getD]
    simp [mediaLoginBuf, strcpy_of_lt, poke, pokeShort, zeroed]
  · simp only [frame_getD]
    simp [mediaLoginBuf, strcpy_of_lt, poke, pokeShort, zeroed]
    omega
  · simp only [frame_getD]
    simp [mediaLoginBuf, strcpy_of_lt, poke, pokeShort, zeroed]
  · simp only [frame_getD]
    simp [mediaLoginBuf, strcpy_of_lt, poke, pokeShort, zeroed]
  · simp only [frame_getD]
    simp [mediaLoginBuf, strcpy_of_lt, poke, pokeShort, zeroed]
  · intro i hi
    have hb := getD_lt_of_forall_lt g.username i hub
    rw [frame_getD, if_pos (by omega)]
    simp only [mediaLoginBuf]
    rw [strcpy_of_lt (by omega), strcpy_of_mem (by omega) (by omega)]
    rw [show 47 + i - 47 = i by omega, Nat.mod_eq_of_lt hb]
  · intro i hi
    have hb := getD_lt_of_forall_lt g.password i hpb
    rw [frame_getD, if_pos (by omega)]
    simp only [mediaLoginBuf]
    rw [strcpy_of_mem (by omega) (by omega)]
    rw [show 81 + i - 81 = i by omega, Nat.mod_eq_of_lt hb]
  · intro i hi hnu hnp
    simp at hi
    rw [frame_getD]
    split_ifs
    · simp only [mediaLoginBuf, strcpy, poke, pokeShort, zeroed]
      simp [hi, hnu, hnp]
    · rfl

/-- Witness of C9: the default credentials "admin" / "admin" on channel 0. -/
theorem ConnectViaMedia_login_frame_witness :
    (0 < 16 ∧ defaultArgs.username.length ≤ 7 ∧ defaultArgs.password.length ≤ 5)
    ∧ sentFrames (ConnectViaMedia defaultArgs plainMachine (connected [some 507] []) 0).2.log
      = (if defaultArgs.model = CameraModel.media_header
         then [[48, 49, 50, 51, 52, 53, 54], frame (mediaLoginBuf defaultArgs 0) 507]
         else [frame (mediaLoginBuf defaultArgs 0) 507])
    ∧ (frame (mediaLoginBuf defaultArgs 0) 507).length = 507 :=
  have h := ConnectViaMedia_login_frame defaultArgs plainMachine [some 507] [] 0
    (by decide) (by decide) (by decide) (by decide) (by decide)
  ⟨by decide, h.1, h.2.1⟩

/-- C10, on the code: `ConnectCnMClassic` returns 0 although its first
receive returned 7 bytes instead of 8, because the first of the 7 bytes is 1;
and it returns 0 although its first receive failed (-1), when the byte that
the uninitialised buffer happens to hold at offset 0 is 1. -/
theorem ConnectCnMClassic_accepts_short_ack :
    (ConnectCnMClassic defaultArgs plainMachine
      (connected [some 500]
        [Reply.data [1, 0, 0, 0, 0, 0, 0], Reply.data (List.replicate 520 0)]) 0).1 = 0
    ∧ recvLens (ConnectCnMClassic defaultArgs plainMachine
      (connected [some 500]
        [Reply.data [1, 0, 0, 0, 0, 0, 0], Reply.data (List.replicate 520 0)]) 0).2.log
      = [8, 520]
    ∧ recvRets (ConnectCnMClassic defaultArgs plainMachine
      (connected [some 500]
        [Reply.data [1, 0, 0, 0, 0, 0, 0], Reply.data (List.replicate 520 0)]) 0).2.log
      = [7, 520]
    ∧ (ConnectCnMClassic defaultArgs { hostName := [], junk := fun _ => 1 }
      (connected [some 500] [Reply.timeout, Reply.data (List.replicate 520 0)]) 0).1 = 0
    ∧ recvRets (ConnectCnMClassic defaultArgs { hostName := [], junk := fun _ => 1 }
      (connected [some 500] [Reply.timeout, Reply.data (List.replicate 520 0)]) 0).2.log
      = [-1, 520] := by
  decide

/-! ## ConnectQT504 and ConnectMEYE: the whole exchange -/

theorem recvRet_pos_ne_nil (len : Nat) (rs : List Reply) (h : 0 < recvRet len rs) : rs ≠ [] := by
  intro hn
  subst hn
  simp [recvRet, delivered] at h

theorem recvWhilePositive_fuel (n : Nat) (s : Sock) (m : Mem) (h : s.replies.length < n) :
    recvWhilePositive n s m = recvWhilePositive (s.replies.length + 1) s m := by
  induction n generalizing s m with
  | zero => omega
  | succ n ih =>
    simp only [recvWhilePositive]
    by_cases hp : (recv s m 532).1 > 0
    · have hne : s.replies ≠ [] := recvRet_pos_ne_nil 532 s.replies hp
      have hlen : (recv s m 532).2.2.replies.length + 1 = s.replies.length := by
        simp only [recv, List.length_tail]
        have : 0 < s.replies.length := List.length_pos.mpr hne
        omega
      rw [if_pos hp, if_pos hp, ih _ _ (by omega), ← hlen]
    · rw [if_neg hp, if_neg hp]

theorem recvWhilePositive_ends (n : Nat) (s : Sock) (m : Mem) (h : s.replies.length < n) :
    ∃ (pre : List Ev) (y : Int),
      (recvWhilePositive n s m).2.log = pre ++ [Ev.recv 532 y] ∧ y ≤ 0 := by
  induction n generalizing s m with
  | zero => omega
  | succ n ih =>
    simp only [recvWhilePositive]
    by_cases hp : (recv s m 532).1 > 0
    · have hne : s.replies ≠ [] := recvRet_pos_ne_nil 532 s.replies hp
      have hlen : (recv s m 532).2.2.replies.length + 1 = s.replies.length := by
        simp only [recv, List.length_tail]
        have : 0 < s.replies.length := List.length_pos.mpr hne
        omega
      rw [if_pos hp]
      exact ih _ _ (by omega)
    · rw [if_neg hp]
      exact ⟨s.log, recvRet 532 s.replies, rfl, by simpa [recv] using hp⟩

theorem gethostname_of_lt {m : Mem} {off len j : Nat} {name : List Nat} (h : j < off) :
    gethostname m off len name j = m j := by
  have h1 : ¬ (off ≤ j ∧ j < off + len ∧ j < off + name.length) := by omega
  have h2 : ¬ (j = off + name.length ∧ j < off + len) := by omega
  simp [gethostname, h1, h2]

theorem frame_take (m : Mem) (n k : Nat) (h : k ≤ n) : (frame m n).take k = frame m k := by
  simp [frame, ← List.map_take, List.take_range, h]

theorem qt504LoginBuf_magic (g : GlobalArgs) (mach : Machine) :
    (frame (qt504LoginBuf g mach) 144).take 4 = [0x31, 0x31, 0x31, 0x31] := by
  rw [frame_take _ _ _ (by decide)]
  simp [frame, List.range_succ, qt504LoginBuf, poke, strcpy_of_lt, gethostname_of_lt]

theorem send_recv_then_test (s : Sock) (m b : Mem) (pre : List Ev) (y : Int)
    (hl : s.log = pre ++ [Ev.recv 532 y]) :
    ∃ (sr x : Int),
      (if (recv (send s b 60).2 m 124).1 ≤ 0 then ((1 : Int), (recv (send s b 60).2 m 124).2.2)
        else ((0 : Int), (recv (send s b 60).2 m 124).2.2)).2.log
        = pre ++ [Ev.recv 532 y, Ev.send (frame b 60) sr, Ev.recv 124 x]
      ∧ ((if (recv (send s b 60).2 m 124).1 ≤ 0
          then ((1 : Int), (recv (send s b 60).2 m 124).2.2)
          else ((0 : Int), (recv (send s b 60).2 m 124).2.2)).1 = 0 ↔ 0 < x)
      ∧ ((if (recv (send s b 60).2 m 124).1 ≤ 0
          then ((1 : Int), (recv (send s b 60).2 m 124).2.2)
          else ((0 : Int), (recv (send s b 60).2 m 124).2.2)).1 ≠ 0 →
        (if (recv (send s b 60).2 m 124).1 ≤ 0
          then ((1 : Int), (recv (send s b 60).2 m 124).2.2)
          else ((0 : Int), (recv (send s b 60).2 m 124).2.2)).1 = 1) := by
  refine ⟨sendRet 60 s.accept, recvRet 124 s.replies, ?_, ?_, ?_⟩
  · split_ifs <;> simp [recv, send, hl]
  · by_cases h : recvRet 124 s.replies ≤ 0
    · simp [recv, send, h]
    · simp only [recv, send, h, if_false]
      simp
      omega
  · by_cases h : recvRet 124 s.replies ≤ 0
    · simp [recv, send, h]
    · simp [recv, send, h]

/-- C11: for every channel c in 0..15 `ConnectQT504` sends, in this order,
frames of exactly 144, 88 and 60 bytes, each beginning with 31 31 31 31, the
third with big-endian 1 << c at offsets 36-37 and at offsets 52-53; the loop
of receives between the second and the third send ends on a receive that
returns 0 or less; the last call is a receive of 124 bytes, and the procedure
returns 0 if and only if that receive returns more than 0 (it returns 1
otherwise). -/
theorem ConnectQT504_exchange (g : GlobalArgs) (mach : Machine)
    (accept : List (Option Nat)) (replies : List Reply) (c : Nat) (hc : c < 16) :
    sentFrames (ConnectQT504 g mach (connected accept replies) c).2.log
      = [frame (qt504LoginBuf g mach) 144, frame qt504SuppBuf 88, frame (qt504ChannelBuf c) 60]
    ∧ (frame (qt504LoginBuf g mach) 144).length = 144
    ∧ (frame qt504SuppBuf 88).length = 88
    ∧ (frame (qt504ChannelBuf c) 60).length = 60
    ∧ (frame (qt504LoginBuf g mach) 144).take 4 = [0x31, 0x31, 0x31, 0x31]
    ∧ (frame qt504SuppBuf 88).take 4 = [0x31, 0x31, 0x31, 0x31]
    ∧ (frame (qt504ChannelBuf c) 60).take 4 = [0x31, 0x31, 0x31, 0x31]
    ∧ (frame (qt504ChannelBuf c) 60).getD 36 0 = 2 ^ c / 256
    ∧ (frame (qt504ChannelBuf c) 60).getD 37 0 = 2 ^ c % 256
    ∧ (frame (qt504ChannelBuf c) 60).getD 52 0 = 2 ^ c / 256
    ∧ (frame (qt504ChannelBuf c) 60).getD 53 0 = 2 ^ c % 256
    ∧ (∃ (pre : List Ev) (y sr x : Int),
        (ConnectQT504 g mach (connected accept replies) c).2.log
          = pre ++ [Ev.recv 532 y, Ev.send (frame (qt504ChannelBuf c) 60) sr, Ev.recv 124 x]
        ∧ y ≤ 0
        ∧ ((ConnectQT504 g mach (connected accept replies) c).1 = 0 ↔ 0 < x)
        ∧ ((ConnectQT504 g mach (connected accept replies) c).1 ≠ 0 →
            (ConnectQT504 g mach (connected accept replies) c).1 = 1)) := by
  have h2c : 2 ^ c ≤ 32768 := by
    interval_cases c <;> norm_num
  refine ⟨ConnectQT504_sentFrames g mach accept replies c, frame_length _ _, frame_length _ _,
    frame_length _ _, qt504LoginBuf_magic g mach, by decide, ?_, ?_, ?_, ?_, ?_, ?_⟩
  · rw [frame_take _ _ _ (by decide)]
    simp [frame, List.range_succ, qt504ChannelBuf, poke, pokeShort]
  · simp only [frame_getD]
    simp [qt504ChannelBuf, poke, pokeShort]
    omega
  · simp only [frame_getD]
    simp [qt504ChannelBuf, poke, pokeShort]
  · simp only [frame_getD]
    simp [qt504ChannelBuf, poke, pokeShort]
    omega
  · simp only [frame_getD]
    simp [qt504ChannelBuf, poke, pokeShort]
  · simp only [ConnectQT504]
    obtain ⟨pre, y, hl, hy⟩ := recvWhilePositive_ends
      ((send (recv (send (connected accept replies) (qt504LoginBuf g mach)
        sizeofQSee504Login).2 mach.junk 532).2.2 qt504SuppBuf 88).2.replies.length + 1)
      (send (recv (send (connected accept replies) (qt504LoginBuf g mach)
        sizeofQSee504Login).2 mach.junk 532).2.2 qt504SuppBuf 88).2
      (recv (send (connected accept replies) (qt504LoginBuf g mach)
        sizeofQSee504Login).2 mach.junk 532).2.1 (by omega)
    obtain ⟨sr, x, h1, h2, h3⟩ := send_recv_then_test _ _ (qt504ChannelBuf c) pre y hl
    exact ⟨pre, y, sr, x, h1, hy, h2, h3⟩

/-- Witness of C11: channel 3; the peer answers the first receive, is silent
in the loop and answers the last receive with one byte. -/
theorem ConnectQT504_exchange_witness :
    3 < 16
    ∧ sentFrames (ConnectQT504 defaultArgs plainMachine
        (connected [some 144, some 88, some 60]
          [Reply.data [0], Reply.timeout, Reply.data [0]]) 3).2.log
      = [frame (qt504LoginBuf defaultArgs plainMachine) 144, frame qt504SuppBuf 88,
         frame (qt504ChannelBuf 3) 60]
    ∧ (frame (qt504ChannelBuf 3) 60).getD 37 0 = 2 ^ 3 % 256 :=
  have h := ConnectQT504_exchange defaultArgs plainMachine [some 144, some 88, some 60]
    [Reply.data [0], Reply.timeout, Reply.data [0]] 3 (by decide)
  ⟨by decide, h.1, h.2.2.2.2.2.2.2.2.1⟩

/-- C12: for every channel c in 0..15 `ConnectMEYE` sends, in this order, the
43-byte init frame "GET /bubble/live?ch=0&stream=0 HTTP/1.1" CR LF CR LF (the
same for every channel), a 58-byte login frame with AA at offset 0 and 35 at
offset 4, an 18-byte config frame with AA at offset 0 and 0D at offset 4, and
a 26-byte channel-select frame with AA at offset 0, 15 at offset 4 and
big-endian c at offsets 9-10; and it returns 0 if and only if the send of the
channel-select frame returns 26. -/
theorem ConnectMEYE_exchange (g : GlobalArgs) (mach : Machine)
    (accept : List (Option Nat)) (replies : List Reply) (c : Nat) (hc : c < 16) :
    sentFrames (ConnectMEYE g mach (connected accept replies) c).2.log
      = [frame meyeInitBuf 43, frame (meyeLoginBuf g) 58, frame meyeConfigBuf 18,
         frame (meyeChannelBuf c) 26]
    ∧ frame meyeInitBuf 43
      = cstr "GET /bubble/live?ch=0&stream=0 HTTP/1.1" ++ [0x0d, 0x0a, 0x0d, 0x0a]
    ∧ (frame meyeInitBuf 43).length = 43
    ∧ (frame (meyeLoginBuf g) 58).length = 58
    ∧ (frame (meyeLoginBuf g) 58).getD 0 0 = 0xAA
    ∧ (frame (meyeLoginBuf g) 58).getD 4 0 = 0x35
    ∧ (frame meyeConfigBuf 18).length = 18
    ∧ (frame meyeConfigBuf 18).getD 0 0 = 0xAA
    ∧ (frame meyeConfigBuf 18).getD 4 0 = 0x0D
    ∧ (frame (meyeChannelBuf c) 26).length = 26
    ∧ (frame (meyeChannelBuf c) 26).getD 0 0 = 0xAA
    ∧ (frame (meyeChannelBuf c) 26).getD 4 0 = 0x15
    ∧ (frame (meyeChannelBuf c) 26).getD 9 0 = c / 256
    ∧ (frame (meyeChannelBuf c) 26).getD 10 0 = c % 256
    ∧ sendRets (ConnectMEYE g mach (connected accept replies) c).2.log
      = [sendRet 43 accept, sendRet 58 accept.tail, sendRet 18 accept.tail.tail,
         sendRet 26 accept.tail.tail.tail]
    ∧ ((ConnectMEYE g mach (connected accept replies) c).1 = 0
        ↔ sendRet 26 accept.tail.tail.tail = 26) := by
  refine ⟨ConnectMEYE_sentFrames g mach accept replies c, by decide, frame_length _ _,
    frame_length _ _, ?_, ?_, frame_length _ _, by decide, by decide, frame_length _ _,
    ?_, ?_, ?_, ?_, ?_, ?_⟩
  · simp only [frame_getD]
    simp [meyeLoginBuf, poke, strcpy_of_lt]
  · simp only [frame_getD]
    simp [meyeLoginBuf, poke, strcpy_of_lt]
  · simp only [frame_getD]
    simp [meyeChannelBuf, poke, pokeShort]
  · simp only [frame_getD]
    simp [meyeChannelBuf, poke, pokeShort]
  · simp only [frame_getD]
    simp [meyeChannelBuf, poke, pokeShort]
    omega
  · simp only [frame_getD]
    simp [meyeChannelBuf, poke, pokeShort]
  · simp only [ConnectMEYE, send, recv, connected, sizeofmEye]
    split_ifs <;> simp [sendRets]
  · simp only [ConnectMEYE, send, recv, connected, sizeofmEye]
    split_ifs <;> simp_all

/-- Witness of C12: channel 3 and a peer that takes every byte. -/
theorem ConnectMEYE_exchange_witness :
    3 < 16
    ∧ sentFrames (ConnectMEYE defaultArgs plainMachine
        (connected [some 43, some 58, some 18, some 26] []) 3).2.log
      = [frame meyeInitBuf 43, frame (meyeLoginBuf defaultArgs) 58, frame meyeConfigBuf 18,
         frame (meyeChannelBuf 3) 26]
    ∧ ((ConnectMEYE defaultArgs plainMachine
        (connected [some 43, some 58, some 18, some 26] []) 3).1 = 0
        ↔ sendRet 26 [some 26] = 26) :=
  have h := ConnectMEYE_exchange defaultArgs plainMachine [some 43, some 58, some 18, some 26]
    [] 3 (by decide)
  ⟨by decide, h.1, h.2.2.2.2.2.2.2.2.2.2.2.2.2.2.2⟩

/-! ## The Worker -/

theorem killChildren_not_write (g : GlobalArgs) :
    ∀ c ∈ killChildren g, c.isWrite = false := by
  intro c hc
  simp only [killChildren, List.mem_filterMap] at hc
  obtain ⟨j, _, hj⟩ := hc
  split_ifs at hj
  cases hj
  rfl

theorem step_beforeStream (g : GlobalArgs) (mach : Machine) (ch : Nat) (w : Worker) (i : Input)
    (h : beforeStream w.pc = true) :
    Call.handshake 0 ∈ (step g mach ch w i).2
    ∨ (beforeStream (step g mach ch w i).1.pc = true
        ∧ ∀ c ∈ (step g mach ch w i).2, c.isWrite = false) := by
  obtain ⟨pc, sockFd, outPipe, flag⟩ := w
  cases i with
  | signal sig =>
    right
    cases pc <;> simp [step, beforeStream] at h ⊢ <;> split_ifs <;> simp [beforeStream]
  | go a =>
    cases pc <;> simp only [beforeStream] at h
    all_goals first
      | (exact absurd h (by decide))
      | skip
    all_goals simp only [step]
    · right; simp [beforeStream, Call.isWrite]
    · right; split_ifs <;> simp [beforeStream]
    · right; split_ifs <;> simp [beforeStream, Call.isWrite]
    · by_cases hr : (pConnectFunc g.model g mach (connected a.accept a.replies) ch).1 = 0
      · left; simp [hr]
      · right; simp [hr, beforeStream, Call.isWrite]
    · right; split_ifs <;> simp [beforeStream]
    · right; split_ifs <;> simp [beforeStream, Call.isWrite]
    · right; split_ifs <;> simp [beforeStream, Call.isWrite]
    · right
      refine ⟨by simp [beforeStream], ?_⟩
      intro c hc
      simp only [List.mem_append, List.mem_cons, List.mem_singleton, List.not_mem_nil,
        or_false] at hc
      rcases hc with ((hc | hc | hc) | hc) | hc
      · rw [hc]; rfl
      · rw [hc]; rfl
      · rw [hc]; rfl
      · exact killChildren_not_write g c hc
      · rw [hc]; rfl
    · right; simp [beforeStream]
    · right; simp [beforeStream]

theorem run_no_write_before_handshake (g : GlobalArgs) (mach : Machine) (ch : Nat)
    (inputs : List Input) (w : Worker) (h : beforeStream w.pc = true)
    (hn : Call.handshake 0 ∉ (run g mach ch inputs w).2) :
    ∀ c ∈ (run g mach ch inputs w).2, c.isWrite = false := by
  induction inputs generalizing w with
  | nil => simp [run]
  | cons i rest ih =>
    simp only [run, List.mem_append, not_or] at hn ⊢
    rcases step_beforeStream g mach ch w i h with h1 | ⟨h1, h2⟩
    · exact absurd h1 hn.1
    · intro c hc
      rcases hc with hc | hc
      · exact h2 c hc
      · exact ih _ h1 hn.2 c hc

theorem step_reconnecting (g : GlobalArgs) (mach : Machine) (ch : Nat) (o : Int) (w : Worker)
    (a : Answer) (h : reconnecting o w) :
    Call.handshake 0 ∈ (step g mach ch w (Input.go a)).2
    ∨ reconnecting o (step g mach ch w (Input.go a)).1 := by
  obtain ⟨pc, sockFd, outPipe, flag⟩ := w
  obtain ⟨hf, ho, hpc⟩ := h
  simp only at hf ho hpc
  subst hf ho
  rcases hpc with h | h | h | h | h <;> subst h <;> simp only [step]
  · right; simp [reconnecting]
  · right; simp [reconnecting]
  · right; split_ifs <;> simp [reconnecting]
  · by_cases hr : (pConnectFunc g.model g mach (connected a.accept a.replies) ch).1 = 0
    · left; simp [hr]
    · right; simp [hr, reconnecting]
  · right; simp [reconnecting]

theorem run_reconnecting (g : GlobalArgs) (mach : Machine) (ch : Nat) (o : Int)
    (answers : List Answer) (w : Worker) (h : reconnecting o w)
    (hn : Call.handshake 0 ∉ (run g mach ch (answers.map Input.go) w).2) :
    reconnecting o (run g mach ch (answers.map Input.go) w).1 := by
  induction answers generalizing w with
  | nil => simpa [run] using h
  | cons a rest ih =>
    simp only [List.map_cons, run, List.mem_append, not_or] at hn ⊢
    rcases step_reconnecting g mach ch o w a h with h1 | h1
    · exact absurd h1 hn.1
    · exact ih _ h1 hn.2

/-- C13, on the code: a Worker that streams on socket 5 with the sink open as
descriptor 6 receives SIGUSR2 (flag 3, the pipe-preserving reset).  It sees
the flag in the test of the stream loop, clears it, closes the socket, and
then closes the sink as well: when it is back at the test of the connect loop
the sink handle is -1, not 6. -/
theorem pipe_preserving_reset_closes_sink :
    run oneChannel plainMachine 0
      [Input.signal Signal.SIGUSR2, Input.go quiet, Input.go quiet, Input.go quiet,
       Input.go quiet]
      { pc := PC.streamTest, sockFd := 5, outPipe := 6, g_cleanUp := 0 }
    = ({ pc := PC.loopTest, sockFd := -1, outPipe := -1, g_cleanUp := 0 },
       [Call.close 5, Call.close 6]) := by
  decide

/-- C14: when a Worker reads the flag value 2 (full reset) in the stream loop,
at the test of the loop or after a failed read, its next steps make no write:
they close the socket and the sink (each when its handle is not -1), set both
handles to -1 and the flag to 0, and bring the Worker to the test of the
connect loop, from where it goes on to connect.  The sink is opened again
only lazily: no step of the connect loop or of the handshake opens it, and
the step of the stream loop opens it exactly when a frame has arrived. -/
theorem full_reset_closes_socket_and_sink (g : GlobalArgs) (mach : Machine) (ch : Nat) (w : Worker)
    (a1 a2 a3 a4 a5 : Answer) (hf : w.g_cleanUp = 2) :
    (w.pc = PC.streamTest →
      run g mach ch [Input.go a1, Input.go a2, Input.go a3, Input.go a4] w
      = ({ pc := PC.loopTest, sockFd := -1, outPipe := -1, g_cleanUp := 0 },
         (if w.sockFd ≠ -1 then [Call.close w.sockFd] else [])
          ++ (if w.outPipe ≠ -1 then [Call.close w.outPipe] else [])))
    ∧ (w.pc = PC.afterStream →
      run g mach ch [Input.go a2, Input.go a3, Input.go a4] w
      = ({ pc := PC.loopTest, sockFd := -1, outPipe := -1, g_cleanUp := 0 },
         (if w.sockFd ≠ -1 then [Call.close w.sockFd] else [])
          ++ (if w.outPipe ≠ -1 then [Call.close w.outPipe] else [])))
    ∧ step g mach ch { pc := PC.loopTest, sockFd := -1, outPipe := -1, g_cleanUp := 0 }
        (Input.go a5)
      = ({ pc := PC.connecting, sockFd := -1, outPipe := -1, g_cleanUp := 0 }, [])
    ∧ (∀ (v : Worker) (a : Answer), v.outPipe = -1 →
        (v.pc = PC.loopTest ∨ v.pc = PC.connecting ∨ v.pc = PC.handshaking) →
        (step g mach ch v (Input.go a)).1.outPipe = -1
        ∧ ∀ p fd, Call.openSink p fd ∉ (step g mach ch v (Input.go a)).2)
    ∧ (∀ (v : Worker) (a : Answer), v.outPipe = -1 → v.pc = PC.streaming →
        (Call.openSink (pipename g ch) a.fd ∈ (step g mach ch v (Input.go a)).2
          ↔ 0 < recvRet 2048 [a.reply])) := by
  obtain ⟨pc, sockFd, outPipe, flag⟩ := w
  simp only at hf
  subst hf
  refine ⟨?_, ?_, ?_, ?_, ?_⟩
  · intro h
    simp only at h
    subst h
    simp [run, step]
  · intro h
    simp only at h
    subst h
    simp [run, step]
  · simp [step]
  · intro v a ho hpc
    obtain ⟨pc, sockFd, outPipe, flag⟩ := v
    simp only at ho hpc
    subst ho
    rcases hpc with h | h | h <;> subst h <;> simp only [step] <;> split_ifs <;> simp
  · intro v a ho hpc
    obtain ⟨pc, sockFd, outPipe, flag⟩ := v
    simp only at ho hpc
    subst ho hpc
    simp only [step]
    by_cases hr : recvRet 2048 [a.reply] ≤ 0
    · simp [hr]
    · simp only [hr, if_false, relay]
      split_ifs <;> simp <;> omega

/-- Witness of C14: socket 5, sink 6, flag 2 at the test of the stream loop. -/
theorem full_reset_closes_socket_and_sink_witness :
    run oneChannel plainMachine 0
      [Input.go quiet, Input.go quiet, Input.go quiet, Input.go quiet]
      { pc := PC.streamTest, sockFd := 5, outPipe := 6, g_cleanUp := 2 }
    = ({ pc := PC.loopTest, sockFd := -1, outPipe := -1, g_cleanUp := 0 },
       (if (5 : Int) ≠ -1 then [Call.close 5] else [])
        ++ (if (6 : Int) ≠ -1 then [Call.close 6] else [])) :=
  (full_reset_closes_socket_and_sink oneChannel plainMachine 0
    { pc := PC.streamTest, sockFd := 5, outPipe := 6, g_cleanUp := 2 }
    quiet quiet quiet quiet quiet rfl).1 rfl

/-- C15, on the code: a Worker whose connect fails is in its backoff when
SIGUSR1 arrives (flag 2, a reset request).  The test of the connect loop reads
the flag, the loop ends, and the Worker closes its handles, removes the sink
path and ends with status 0, although no terminate request was made and no
handshake failed. -/
theorem reset_during_backoff_ends_worker :
    run oneChannel plainMachine 0
      [Input.go quiet, Input.go quiet,
       Input.go { quiet with connectRet := -1, errno := Errno.ECONNREFUSED },
       Input.signal Signal.SIGUSR1, Input.go quiet, Input.go quiet]
      (workerStart 0)
    = ({ pc := PC.done 0, sockFd := -1, outPipe := -1, g_cleanUp := 2 },
       [Call.mkfifo (pipename oneChannel 0), Call.socket 3, Call.connect 3 (-1), Call.close 3,
        Call.sleep 10, Call.close (-1), Call.close (-1), Call.unlink (pipename oneChannel 0),
        Call.kill 1 Signal.SIGTERM, Call.exitProcess 0]) := by
  decide

/-- C16: in the stream loop, when a frame has arrived, the sink is open (or
has just been opened) and `write` returns -1 with EAGAIN or EWOULDBLOCK, the
step makes that one write and no close, leaves the socket handle, the sink
handle and the flag as they are, and goes to the test of the stream loop;
with an open socket and no request pending (flag 0) the next step is the
body of the loop again, which starts with the next `recv`. -/
theorem would_block_discards_frame (g : GlobalArgs) (mach : Machine) (ch : Nat) (w : Worker) (a a2 : Answer)
    (hpc : w.pc = PC.streaming) (hread : 0 < recvRet 2048 [a.reply])
    (hsink : (if w.outPipe = -1 then a.fd else w.outPipe) ≠ -1)
    (hw : a.written = none) (he : a.errno = Errno.EAGAIN ∨ a.errno = Errno.EWOULDBLOCK) :
    (step g mach ch w (Input.go a)).1
      = { pc := PC.streamTest, sockFd := w.sockFd,
          outPipe := (if w.outPipe = -1 then a.fd else w.outPipe), g_cleanUp := w.g_cleanUp }
    ∧ (step g mach ch w (Input.go a)).2
      = [Call.recv w.sockFd (recvRet 2048 [a.reply])]
        ++ (if w.outPipe = -1 then [Call.openSink (pipename g ch) a.fd] else [])
        ++ [Call.write (if w.outPipe = -1 then a.fd else w.outPipe) (streamFrame a.reply) (-1)]
    ∧ (∀ fd, Call.close fd ∉ (step g mach ch w (Input.go a)).2)
    ∧ (w.sockFd ≠ -1 → w.g_cleanUp = 0 →
        step g mach ch (step g mach ch w (Input.go a)).1 (Input.go a2)
        = ({ pc := PC.streaming, sockFd := w.sockFd,
             outPipe := (if w.outPipe = -1 then a.fd else w.outPipe), g_cleanUp := 0 }, [])) := by
  obtain ⟨pc, sockFd, outPipe, flag⟩ := w
  simp only at hpc hsink
  subst hpc
  have hr : ¬ recvRet 2048 [a.reply] ≤ 0 := by omega
  have key : step g mach ch ⟨PC.streaming, sockFd, outPipe, flag⟩ (Input.go a)
      = ({ pc := PC.streamTest, sockFd := sockFd,
           outPipe := (if outPipe = -1 then a.fd else outPipe), g_cleanUp := flag },
         [Call.recv sockFd (recvRet 2048 [a.reply])]
          ++ (if outPipe = -1 then [Call.openSink (pipename g ch) a.fd] else [])
          ++ [Call.write (if outPipe = -1 then a.fd else outPipe) (streamFrame a.reply) (-1)]) := by
    simp only [step, hr, if_false, relay, hw, writeRet]
    rw [if_pos hsink, if_pos trivial, if_pos he]
  rw [key]
  refine ⟨rfl, rfl, ?_, ?_⟩
  · intro fd
    split_ifs <;> simp
  · intro hs hf
    simp only at hs hf
    subst hf
    simp [step, hs]

/-- Witness of C16: socket 5, sink 6, a frame of two bytes, EAGAIN. -/
theorem would_block_discards_frame_witness :
    (step oneChannel plainMachine 0
      { pc := PC.streaming, sockFd := 5, outPipe := 6, g_cleanUp := 0 }
      (Input.go { quiet with reply := Reply.data [1, 2], errno := Errno.EAGAIN })).1
    = { pc := PC.streamTest, sockFd := 5,
        outPipe := (if (6 : Int) = -1 then 3 else 6), g_cleanUp := 0 } :=
  (would_block_discards_frame oneChannel plainMachine 0
    { pc := PC.streaming, sockFd := 5, outPipe := 6, g_cleanUp := 0 }
    { quiet with reply := Reply.data [1, 2], errno := Errno.EAGAIN } quiet
    rfl (by decide) (by decide) rfl (Or.inl rfl)).1

/-- C17: when the `recv` of the stream loop returns 0 or less and no request is
pending (flag 0), the step closes the socket, sets its handle to -1 and
leaves the sink handle as it is; the next steps reach the connect, which
calls `socket` and `connect` anew.  From there on, whatever happens (signals
included), no call writes to the sink before a handshake has returned 0; and
as long as no signal arrives, the sink handle stays as it was until a
handshake has returned 0. -/
theorem failed_read_reconnects_without_write (g : GlobalArgs) (mach : Machine) (ch : Nat) (w : Worker) (a a2 a3 a4 : Answer)
    (hpc : w.pc = PC.streaming) (hf : w.g_cleanUp = 0)
    (hread : recvRet 2048 [a.reply] ≤ 0) :
    step g mach ch w (Input.go a)
      = ({ pc := PC.afterStream, sockFd := -1, outPipe := w.outPipe, g_cleanUp := 0 },
         [Call.recv w.sockFd (recvRet 2048 [a.reply]), Call.close w.sockFd])
    ∧ run g mach ch [Input.go a2, Input.go a3, Input.go a4]
        { pc := PC.afterStream, sockFd := -1, outPipe := w.outPipe, g_cleanUp := 0 }
      = (step g mach ch
          { pc := PC.connecting, sockFd := -1, outPipe := w.outPipe, g_cleanUp := 0 }
          (Input.go a4))
    ∧ (step g mach ch
          { pc := PC.connecting, sockFd := -1, outPipe := w.outPipe, g_cleanUp := 0 }
          (Input.go a4)).2.take 2 = [Call.socket a4.fd, Call.connect a4.fd a4.connectRet]
    ∧ (∀ inputs : List Input,
        Call.handshake 0 ∉ (run g mach ch inputs
          { pc := PC.afterStream, sockFd := -1, outPipe := w.outPipe, g_cleanUp := 0 }).2 →
        ∀ c ∈ (run g mach ch inputs
          { pc := PC.afterStream, sockFd := -1, outPipe := w.outPipe, g_cleanUp := 0 }).2,
          c.isWrite = false)
    ∧ (∀ answers : List Answer,
        Call.handshake 0 ∉ (run g mach ch (answers.map Input.go)
          { pc := PC.afterStream, sockFd := -1, outPipe := w.outPipe, g_cleanUp := 0 }).2 →
        (run g mach ch (answers.map Input.go)
          { pc := PC.afterStream, sockFd := -1, outPipe := w.outPipe, g_cleanUp := 0 }).1.outPipe
          = w.outPipe) := by
  obtain ⟨pc, sockFd, outPipe, flag⟩ := w
  simp only at hpc hf
  subst hpc hf
  refine ⟨?_, ?_, ?_, ?_, ?_⟩
  · simp [step, hread]
  · simp [run, step]
  · simp only [step]
    split_ifs <;> simp
  · intro inputs hn
    exact run_no_write_before_handshake g mach ch inputs _ rfl hn
  · intro answers hn
    exact (run_reconnecting g mach ch outPipe answers _
      ⟨rfl, rfl, Or.inl rfl⟩ hn).2.1

/-- Witness of C17: socket 5, sink 6, the peer closes the connection. -/
theorem failed_read_reconnects_without_write_witness :
    step oneChannel plainMachine 0
      { pc := PC.streaming, sockFd := 5, outPipe := 6, g_cleanUp := 0 }
      (Input.go { quiet with reply := Reply.data [] })
    = ({ pc := PC.afterStream, sockFd := -1, outPipe := 6, g_cleanUp := 0 },
       [Call.recv 5 (recvRet 2048 [Reply.data []]), Call.close 5]) :=
  (failed_read_reconnects_without_write oneChannel plainMachine 0
    { pc := PC.streaming, sockFd := 5, outPipe := 6, g_cleanUp := 0 }
    { quiet with reply := Reply.data [] } quiet quiet quiet rfl rfl (by decide)).1

/-- C18: a Worker for channel i with base name B creates the path
"/tmp/" ++ B ++ decimal(i) with `mkfifo` when it starts; and when it reads the
flag value 1 (terminate), at the test of the connect loop, after a failed
read or at the test of the stream loop, it leaves its loops, calls `close` on
the sink handle and on the socket handle, removes that same path with
`unlink`, runs the last loop of `main` and ends with status 0. -/
theorem terminate_unwinds_worker (g : GlobalArgs) (mach : Machine) (ch : Nat) (w : Worker) (a1 a2 a3 a4 : Answer)
    (f : Int) (hf : w.g_cleanUp = 1) :
    step g mach ch (workerStart f) (Input.go a1)
      = ({ pc := PC.loopTest, sockFd := -1, outPipe := -1, g_cleanUp := f },
         [Call.mkfifo (cstr "/tmp/" ++ g.pipeName ++ decimal ch)])
    ∧ (w.pc = PC.loopTest →
        run g mach ch [Input.go a1, Input.go a2] w
        = ({ pc := PC.done 0, sockFd := w.sockFd, outPipe := w.outPipe, g_cleanUp := 1 },
           [Call.close w.outPipe, Call.close w.sockFd,
            Call.unlink (cstr "/tmp/" ++ g.pipeName ++ decimal ch)]
            ++ killChildren g ++ [Call.exitProcess 0]))
    ∧ (w.pc = PC.afterStream →
        run g mach ch [Input.go a1, Input.go a2, Input.go a3] w
        = ({ pc := PC.done 0, sockFd := w.sockFd, outPipe := w.outPipe, g_cleanUp := 1 },
           [Call.close w.outPipe, Call.close w.sockFd,
            Call.unlink (cstr "/tmp/" ++ g.pipeName ++ decimal ch)]
            ++ killChildren g ++ [Call.exitProcess 0]))
    ∧ (w.pc = PC.streamTest →
        run g mach ch [Input.go a1, Input.go a2, Input.go a3, Input.go a4] w
        = ({ pc := PC.done 0, sockFd := w.sockFd, outPipe := w.outPipe, g_cleanUp := 1 },
           [Call.close w.outPipe, Call.close w.sockFd,
            Call.unlink (cstr "/tmp/" ++ g.pipeName ++ decimal ch)]
            ++ killChildren g ++ [Call.exitProcess 0])) := by
  obtain ⟨pc, sockFd, outPipe, flag⟩ := w
  simp only at hf
  subst hf
  refine ⟨?_, ?_, ?_, ?_⟩
  · simp [step, workerStart, pipename]
  · intro h
    simp only at h
    subst h
    simp [run, step, pipename]
  · intro h
    simp only at h
    subst h
    simp [run, step, pipename]
  · intro h
    simp only at h
    subst h
    simp [run, step, pipename]

/-- Witness of C18: channel 0, base name "zmodo", socket 5, sink 6: the path is
"/tmp/zmodo0". -/
theorem terminate_unwinds_worker_witness :
    cstr "/tmp/" ++ oneChannel.pipeName ++ decimal 0
      = [47, 116, 109, 112, 47, 122, 109, 111, 100, 111, 48]
    ∧ run oneChannel plainMachine 0 [Input.go quiet, Input.go quiet]
        { pc := PC.loopTest, sockFd := 5, outPipe := 6, g_cleanUp := 1 }
      = ({ pc := PC.done 0, sockFd := 5, outPipe := 6, g_cleanUp := 1 },
         [Call.close 6, Call.close 5,
          Call.unlink (cstr "/tmp/" ++ oneChannel.pipeName ++ decimal 0)]
          ++ killChildren oneChannel ++ [Call.exitProcess 0]) :=
  ⟨by decide,
   (terminate_unwinds_worker oneChannel plainMachine 0
      { pc := PC.loopTest, sockFd := 5, outPipe := 6, g_cleanUp := 1 }
      quiet quiet quiet quiet 0 rfl).2.1 rfl⟩

/-! ## The Supervisor -/

theorem getD_set_self (l : List Int) (i : Nat) (a : Int) (h : i < l.length) :
    (l.set i a).getD i 0 = a := by
  simp [List.getD_eq_getElem?_getD, h]

theorem getD_set_ne (l : List Int) (i j : Nat) (a : Int) (h : i ≠ j) :
    (l.set i a).getD j 0 = l.getD j 0 := by
  simp [List.getD_eq_getElem?_getD, List.getElem?_set_ne h]

theorem deadChannels_set (g : GlobalArgs) (pids : List Int) (p a : Int) (i n : Nat) :
    deadChannels g (pids.set i a) p (i + 1) n = deadChannels g pids p (i + 1) n := by
  unfold deadChannels
  apply List.filter_congr
  intro j hj
  rw [List.mem_range'_1] at hj
  rw [getD_set_ne pids i j a (by omega)]

theorem forkChannels_parent (g : GlobalArgs) (p : Int) (hp : 0 < p) :
    ∀ (n i : Nat) (forks pids : List Int),
      i + n ≤ pids.length →
      (∀ j, i ≤ j → j < i + n → g.channel.getD j false = true → 0 < pids.getD j 0) →
      (∀ f ∈ forks, 0 < f) →
      (deadChannels g pids p i n).length ≤ forks.length →
      ∃ pids' : List Int,
        forkChannels g p n i forks pids
          = Forked.parent pids' (forks.drop (deadChannels g pids p i n).length)
        ∧ pids'.length = pids.length
        ∧ (∀ j, j ∉ deadChannels g pids p i n → pids'.getD j 0 = pids.getD j 0)
        ∧ (∀ j, j ∈ deadChannels g pids p i n →
            pids'.getD j 0 ∈ forks.take (deadChannels g pids p i n).length) := by
  intro n
  induction n with
  | zero =>
    intro i forks pids _ _ _ _
    exact ⟨pids, by simp [forkChannels, deadChannels], rfl, fun _ _ => rfl,
      by simp [deadChannels]⟩
  | succ n ih =>
    intro i forks pids hlen hpos hforks hcount
    have hi : i < pids.length := by omega
    by_cases hen : g.channel.getD i false = true
    · have hpi : 0 < pids.getD i 0 := hpos i (le_refl _) (by omega) hen
      by_cases hm : pids.getD i 0 = p
      · -- the channel of the dead child: fork
        have hd : deadChannels g pids p i (n + 1) = i :: deadChannels g pids p (i + 1) n := by
          simp [-List.getD_eq_getElem?_getD, deadChannels, List.range'_succ, List.filter_cons, hen, hm]
        rw [hd] at hcount ⊢
        simp only [List.length_cons] at hcount ⊢
        obtain ⟨f, rest, rfl⟩ : ∃ f rest, forks = f :: rest := by
          cases forks with
          | nil => simp at hcount
          | cons f rest => exact ⟨f, rest, rfl⟩
        have hf : 0 < f := hforks f (by simp)
        have hset : (pids.set i f).getD i 0 = f := getD_set_self pids i f hi
        obtain ⟨pids', h1, h2, h3, h4⟩ := ih (i + 1) rest (pids.set i f)
          (by simp; omega)
          (by
            intro j hj1 hj2 hj3
            rw [getD_set_ne pids i j f (by omega)]
            exact hpos j (by omega) (by omega) hj3)
          (by
            intro x hx
            exact hforks x (by simp [hx]))
          (by
            rw [deadChannels_set]
            simp only [List.length_cons] at hcount
            omega)
        rw [deadChannels_set] at h1 h3 h4
        refine ⟨pids', ?_, by simpa using h2, ?_, ?_⟩
        · rw [forkChannels]
          simp only [hen, if_true, hm, or_true, decide_True, List.headD_cons, List.tail_cons,
            hset]
          rw [if_neg (by omega), if_neg (by omega), h1]
          simp
        · intro j hj
          simp only [List.mem_cons, not_or] at hj
          rw [h3 j hj.2, getD_set_ne pids i j f (fun h => hj.1 h.symm)]
        · intro j hj
          simp only [List.mem_cons] at hj
          simp only [List.take_succ_cons, List.mem_cons]
          rcases hj with hj | hj
          · left
            subst hj
            have hnot : j ∉ deadChannels g pids p (j + 1) n := by
              simp [deadChannels, List.mem_range'_1]
            rw [h3 j hnot, hset]
          · right
            exact h4 j hj
      · -- an enabled channel whose Worker is alive
        have hd : deadChannels g pids p i (n + 1) = deadChannels g pids p (i + 1) n := by
          simp [-List.getD_eq_getElem?_getD, deadChannels, List.range'_succ, List.filter_cons, hen, hm]
        rw [hd] at hcount ⊢
        obtain ⟨pids', h1, h2, h3, h4⟩ := ih (i + 1) forks pids (by omega)
          (fun j hj1 hj2 hj3 => hpos j (by omega) (by omega) hj3) hforks hcount
        refine ⟨pids', ?_, h2, h3, h4⟩
        rw [forkChannels]
        have hp0 : ¬ (p = 0 ∨ pids.getD i 0 = p) := by
          intro h
          rcases h with h | h
          · omega
          · exact hm h
        simp only [hen, if_true, hp0, decide_False, Bool.false_eq_true, if_false]
        rw [if_neg (by omega), if_neg (by omega), h1]
    · -- a channel that is not enabled
      have hd : deadChannels g pids p i (n + 1) = deadChannels g pids p (i + 1) n := by
        simp [-List.getD_eq_getElem?_getD, deadChannels, List.range'_succ, List.filter_cons, hen]
      rw [hd] at hcount ⊢
      obtain ⟨pids', h1, h2, h3, h4⟩ := ih (i + 1) forks pids (by omega)
        (fun j hj1 hj2 hj3 => hpos j (by omega) (by omega) hj3) hforks hcount
      refine ⟨pids', ?_, h2, h3, h4⟩
      rw [forkChannels]
      simp only [hen, Bool.false_eq_true, if_false]
      exact h1

theorem mem_deadChannels (g : GlobalArgs) (pids : List Int) (p : Int) (j : Nat) :
    j ∈ deadChannels g pids p 0 16
      ↔ j < 16 ∧ g.channel.getD j false = true ∧ pids.getD j 0 = p := by
  simp [-List.getD_eq_getElem?_getD, deadChannels, List.mem_range'_1]

/-- C19: when `wait` returns the pid p > 0 of a child and the flag is not 1,
the Supervisor stays in its loop and, every `fork` returning the pid of a new
child, calls `fork` once for each enabled channel whose recorded pid is p and
for no other: those channels get the new pids, and the recorded pid of every
other channel, enabled or not, is unchanged.  (The recorded pid of an enabled
channel is positive, as it is in the parent once the first round of forks
is done.) -/
theorem supervisor_restarts_dead_channels (g : GlobalArgs) (s : Supervisor) (p : Int) (forks : List Int)
    (hflag : s.g_cleanUp ≠ 1) (hp : 0 < p) (hlen : s.g_childPids.length = 16)
    (hpos : ∀ j, j < 16 → g.channel.getD j false = true → 0 < s.g_childPids.getD j 0)
    (hforks : ∀ f ∈ forks, 0 < f)
    (hcount : (deadChannels g s.g_childPids p 0 16).length ≤ forks.length) :
    superviseTest s p = some { s with pid := p }
    ∧ ∃ pids' : List Int,
        (superviseBody g { s with pid := p } forks).1
          = Forked.parent pids' (forks.drop (deadChannels g s.g_childPids p 0 16).length)
        ∧ pids'.length = 16
        ∧ (∀ j, ¬ (j < 16 ∧ g.channel.getD j false = true ∧ s.g_childPids.getD j 0 = p) →
            pids'.getD j 0 = s.g_childPids.getD j 0)
        ∧ (∀ j, j < 16 → g.channel.getD j false = true → s.g_childPids.getD j 0 = p →
            pids'.getD j 0 ∈ forks.take (deadChannels g s.g_childPids p 0 16).length) := by
  refine ⟨by simp [superviseTest, hp, hflag], ?_⟩
  obtain ⟨pids', h1, h2, h3, h4⟩ := forkChannels_parent g p hp 16 0 forks s.g_childPids
    (by omega) (fun j _ hj2 hj3 => hpos j (by omega) hj3) hforks hcount
  refine ⟨pids', ?_, by omega, ?_, ?_⟩
  · simpa [superviseBody] using h1
  · intro j hj
    exact h3 j (fun hmem => hj ((mem_deadChannels g _ p j).mp hmem))
  · intro j hj1 hj2 hj3
    exact h4 j ((mem_deadChannels g _ p j).mpr ⟨hj1, hj2, hj3⟩)

/-- Witness of C19: channels 0 and 2 are enabled with Workers 100 and 101;
Worker 101 exits and `fork` returns 102. -/
theorem supervisor_restarts_dead_channels_witness :
    ∃ pids' : List Int,
      (superviseBody { defaultArgs with channel := [true, false, true] ++ List.replicate 13 false }
        { g_childPids := [100, 0, 101] ++ List.replicate 13 0, g_cleanUp := 0, pid := 101 }
        [102]).1
      = Forked.parent pids' ([102].drop (deadChannels
          { defaultArgs with channel := [true, false, true] ++ List.replicate 13 false }
          ([100, 0, 101] ++ List.replicate 13 0) 101 0 16).length)
      ∧ pids'.length = 16 :=
  have h := supervisor_restarts_dead_channels
    { defaultArgs with channel := [true, false, true] ++ List.replicate 13 false }
    { g_childPids := [100, 0, 101] ++ List.replicate 13 0, g_cleanUp := 0, pid := 0 }
    101 [102] (by decide) (by decide) (by decide) (by decide) (by decide) (by decide)
  h.2.elim fun pids' hp => ⟨pids', hp.1, hp.2.1⟩

/-- C20, on the code: channels 0 and 2 are enabled and their Workers have the
pids 1234 and 1235 when the terminate flag ends the loop of the Supervisor.
The last loop of `main` then calls `kill` twice with the pid 1, the value of
`globalArgs.channel[loopIdx]`, and never with 1234 or 1235. -/
theorem supervisor_kills_pid_one :
    superviseTest { g_childPids := [1234, 0, 1235] ++ List.replicate 13 0, g_cleanUp := 1,
                    pid := 0 } 1234 = none
    ∧ superviseEnd { defaultArgs with channel := [true, false, true] ++ List.replicate 13 false }
        { g_childPids := [1234, 0, 1235] ++ List.replicate 13 0, g_cleanUp := 1, pid := 0 }
      = [Call.kill 1 Signal.SIGTERM, Call.kill 1 Signal.SIGTERM, Call.exitProcess 0] := by
  decide

/-! ## The timer signal -/

/-- C21, on the code: a Worker with a reset interval of 30 seconds arms the
timer after its handshake has returned 0 (`alarm(30)`).  When SIGALRM arrives
the Worker does not run `sigHandler`: `main` installs `sigHandler` for SIGPIPE,
SIGTERM, SIGINT, SIGUSR2 and (in the child) SIGUSR1, but for SIGALRM no handler
is installed, so the signal ends the process where it stands, with the socket
open, no close, no unlink and the flag still 0.  SIGUSR1 at the same place sets
the flag to 2 and the Worker goes on, and `sigHandler` itself has a case for
SIGALRM that sets the flag to 2, which is never reached. -/
theorem timer_signal_kills_worker :
    run { oneChannel with timer := 30 } plainMachine 0
      [Input.go quiet, Input.go quiet, Input.go quiet, Input.go quiet,
       Input.signal Signal.SIGALRM]
      (workerStart 0)
    = ({ pc := PC.killed, sockFd := 3, outPipe := -1, g_cleanUp := 0 },
       [Call.mkfifo (pipename oneChannel 0), Call.socket 3, Call.connect 3 0,
        Call.handshake 0, Call.alarm 30])
    ∧ run { oneChannel with timer := 30 } plainMachine 0
      [Input.go quiet, Input.go quiet, Input.go quiet, Input.go quiet,
       Input.signal Signal.SIGUSR1]
      (workerStart 0)
    = ({ pc := PC.streaming, sockFd := 3, outPipe := -1, g_cleanUp := 2 },
       [Call.mkfifo (pipename oneChannel 0), Call.socket 3, Call.connect 3 0,
        Call.handshake 0, Call.alarm 30])
    ∧ workerHandles Signal.SIGALRM = false
    ∧ sigHandler Signal.SIGALRM 0 = 2 := by
  decide

/-! ## The frames relayed to the sink -/

theorem framesWritten_append (a b : List Call) :
    framesWritten (a ++ b) = framesWritten a ++ framesWritten b := by
  induction a with
  | nil => rfl
  | cons c cs ih => cases c <;> simp [framesWritten, ih]

theorem accepted_append (a b : List Call) : accepted (a ++ b) = accepted a ++ accepted b := by
  induction a with
  | nil => rfl
  | cons c cs ih => cases c <;> simp [accepted, ih]

theorem no_write_framesWritten (cs : List Call) (h : ∀ c ∈ cs, c.isWrite = false) :
    framesWritten cs = [] ∧ accepted cs = [] := by
  induction cs with
  | nil => exact ⟨rfl, rfl⟩
  | cons c cs ih =>
    have hc := h c (by simp)
    have ih2 := ih (fun x hx => h x (by simp [hx]))
    cases c <;> simp_all [framesWritten, accepted, Call.isWrite]

theorem step_no_write (g : GlobalArgs) (mach : Machine) (ch : Nat) (w : Worker) (i : Input)
    (h : frameRead w i = []) : ∀ c ∈ (step g mach ch w i).2, c.isWrite = false := by
  obtain ⟨pc, sockFd, outPipe, flag⟩ := w
  cases i with
  | signal sig =>
    cases pc <;> simp [step] <;> split_ifs <;> simp
  | go a =>
    cases pc
    case streaming =>
      simp only [frameRead, true_and] at h
      have hr : recvRet 2048 [a.reply] ≤ 0 := by
        by_contra hc
        rw [if_pos (by omega)] at h
        simp at h
      simp [step, hr, Call.isWrite]
    case cleanup =>
      intro c hc
      simp only [step, List.mem_append, List.mem_cons, List.mem_singleton, List.not_mem_nil,
        or_false] at hc
      rcases hc with ((hc | hc | hc) | hc) | hc
      · rw [hc]; rfl
      · rw [hc]; rfl
      · rw [hc]; rfl
      · exact killChildren_not_write g c hc
      · rw [hc]; rfl
    all_goals simp only [step]
    all_goals first
      | (split_ifs <;> simp [Call.isWrite])
      | simp [Call.isWrite]

theorem recvRet_streamFrame (r : Reply) (h : 0 < recvRet 2048 [r]) :
    recvRet 2048 [r] = ((streamFrame r).length : Int) := by
  cases r with
  | data d => simp [recvRet, delivered, streamFrame]
  | timeout => simp [recvRet, delivered] at h

theorem streamFrame_length (r : Reply) : (streamFrame r).length ≤ 2048 := by
  cases r with
  | data d => simp [streamFrame, List.length_take]
  | timeout => simp [streamFrame]

theorem step_frame (g : GlobalArgs) (mach : Machine) (ch : Nat) (w : Worker) (i : Input) :
    (framesWritten (step g mach ch w i).2).Sublist (frameRead w i)
    ∧ (wholeWrites [i] →
        ∃ kept : List (List Nat), kept.Sublist (frameRead w i)
          ∧ accepted (step g mach ch w i).2 = kept.flatten) := by
  by_cases h : frameRead w i = []
  · have hn := no_write_framesWritten _ (step_no_write g mach ch w i h)
    rw [hn.1, hn.2, h]
    exact ⟨List.Sublist.refl _, fun _ => ⟨[], List.Sublist.refl _, rfl⟩⟩
  · obtain ⟨pc, sockFd, outPipe, flag⟩ := w
    cases i with
    | signal sig => simp [frameRead] at h
    | go a =>
      simp only [frameRead] at h ⊢
      by_cases hc : pc = PC.streaming ∧ 0 < recvRet 2048 [a.reply]
      · obtain ⟨hpc, hr⟩ := hc
        subst hpc
        have hr2 : ¬ recvRet 2048 [a.reply] ≤ 0 := by omega
        have hlen := recvRet_streamFrame a.reply hr
        rw [if_pos ⟨rfl, hr⟩]
        simp only [step, hr2, if_false, relay]
        refine ⟨?_, ?_⟩
        · split_ifs <;> simp [framesWritten]
        · intro hw
          cases hwr : a.written with
          | none =>
            refine ⟨[], by simp, ?_⟩
            split_ifs <;> simp [accepted, writeRet]
          | some n =>
            have hn : (streamFrame a.reply).length ≤ n := hw a n (by simp) hwr
            have hret : writeRet (recvRet 2048 [a.reply]) (some n)
                = ((streamFrame a.reply).length : Int) := by
              simp only [writeRet, hlen]
              omega
            rw [hret]
            have hne : ((streamFrame a.reply).length : Int) ≠ -1 := by omega
            simp only [hne, if_false]
            split_ifs
            all_goals first
              | (refine ⟨[streamFrame a.reply], List.Sublist.refl _, ?_⟩
                 simp [accepted]
                 done)
              | (refine ⟨[], by simp, ?_⟩
                 simp [accepted])
      · rw [if_neg hc] at h
        exact absurd rfl h

theorem wholeWrites_cons (i : Input) (rest : List Input) (h : wholeWrites (i :: rest)) :
    wholeWrites [i] ∧ wholeWrites rest := by
  refine ⟨?_, ?_⟩
  · intro a n ha hn
    exact h a n (by simp at ha; simp [ha]) hn
  · intro a n ha hn
    exact h a n (by simp [ha]) hn

/-- C22 as stated fails: a Worker streams on socket 5 with the sink open as
descriptor 6 and receives a frame of the two bytes 1, 2; `write` takes one
byte and returns 1.  The Worker compares the result of `write` with -1 only,
so it goes on as after a whole write: the sink has accepted the byte 1, which
is not a concatenation of whole received frames. -/
theorem short_write_truncates_frame :
    framesRead oneChannel plainMachine 0
        [Input.go { quiet with reply := Reply.data [1, 2], written := some 1 }]
        { pc := PC.streaming, sockFd := 5, outPipe := 6, g_cleanUp := 0 } = [[1, 2]]
    ∧ (run oneChannel plainMachine 0
        [Input.go { quiet with reply := Reply.data [1, 2], written := some 1 }]
        { pc := PC.streaming, sockFd := 5, outPipe := 6, g_cleanUp := 0 }).2
      = [Call.recv 5 2, Call.write 6 [1, 2] 1]
    ∧ accepted (run oneChannel plainMachine 0
        [Input.go { quiet with reply := Reply.data [1, 2], written := some 1 }]
        { pc := PC.streaming, sockFd := 5, outPipe := 6, g_cleanUp := 0 }).2 = [1]
    ∧ ∀ kept ∈ List.sublists [[1, 2]], List.flatten kept ≠ [1] := by
  decide

/-- C22, amended: for every run of a Worker from any state, the byte strings
handed to `write` are, in receive order, some of the frames that the `recv` of
the stream loop delivered, each whole and unmodified, and every such frame has
at most 2048 bytes; and when the sink takes every `write` whole or not at all
(it returns -1 or has room for the whole frame, as a FIFO does for a `write`
of at most PIPE_BUF bytes), the byte sequence the sink accepted is the
concatenation, in receive order, of some of the received frames. -/
theorem relayed_frames_whole_and_in_order (g : GlobalArgs) (mach : Machine) (ch : Nat) (inputs : List Input) (w : Worker) :
    (framesWritten (run g mach ch inputs w).2).Sublist (framesRead g mach ch inputs w)
    ∧ (∀ f ∈ framesRead g mach ch inputs w, f.length ≤ 2048)
    ∧ (wholeWrites inputs →
        ∃ kept : List (List Nat), kept.Sublist (framesRead g mach ch inputs w)
          ∧ accepted (run g mach ch inputs w).2 = kept.flatten) := by
  induction inputs generalizing w with
  | nil => exact ⟨by simp [run, framesRead, framesWritten], by simp [framesRead],
      fun _ => ⟨[], by simp [framesRead], by simp [run, accepted]⟩⟩
  | cons i rest ih =>
    obtain ⟨h1, h2, h3⟩ := ih (step g mach ch w i).1
    obtain ⟨s1, s3⟩ := step_frame g mach ch w i
    refine ⟨?_, ?_, ?_⟩
    · simp only [run, framesRead, framesWritten_append]
      exact List.Sublist.append s1 h1
    · intro f hf
      simp only [framesRead, List.mem_append] at hf
      rcases hf with hf | hf
      · cases i with
        | signal sig => simp [frameRead] at hf
        | go a =>
          simp only [frameRead] at hf
          split_ifs at hf
          · simp only [List.mem_singleton] at hf
            rw [hf]
            exact streamFrame_length a.reply
          · simp at hf
      · exact h2 f hf
    · intro hw
      obtain ⟨hw1, hw2⟩ := wholeWrites_cons i rest hw
      obtain ⟨k1, hk1, ha1⟩ := s3 hw1
      obtain ⟨k2, hk2, ha2⟩ := h3 hw2
      refine ⟨k1 ++ k2, ?_, ?_⟩
      · simp only [framesRead]
        exact List.Sublist.append hk1 hk2
      · simp only [run, accepted_append, ha1, ha2, List.flatten_append]

/-- Witness of C22: socket 5, sink 6, a frame of two bytes that the sink takes
whole. -/
theorem relayed_frames_whole_and_in_order_witness :
    wholeWrites [Input.go { quiet with reply := Reply.data [1, 2], written := some 2 }]
    ∧ ∃ kept : List (List Nat),
        kept.Sublist (framesRead oneChannel plainMachine 0
          [Input.go { quiet with reply := Reply.data [1, 2], written := some 2 }]
          { pc := PC.streaming, sockFd := 5, outPipe := 6, g_cleanUp := 0 })
        ∧ accepted (run oneChannel plainMachine 0
          [Input.go { quiet with reply := Reply.data [1, 2], written := some 2 }]
          { pc := PC.streaming, sockFd := 5, outPipe := 6, g_cleanUp := 0 }).2
          = kept.flatten := by
  have hw : wholeWrites
      [Input.go { quiet with reply := Reply.data [1, 2], written := some 2 }] := by
    intro a n ha hn
    simp only [List.mem_singleton, Input.go.injEq] at ha
    subst ha
    simp only [quiet, Option.some.injEq] at hn
    subst hn
    decide
  exact ⟨hw, (relayed_frames_whole_and_in_order oneChannel plainMachine 0
    [Input.go { quiet with reply := Reply.data [1, 2], written := some 2 }]
    { pc := PC.streaming, sockFd := 5, outPipe := 6, g_cleanUp := 0 }).2.2 hw⟩

/-! ## The default port -/

/-- C23: when no port is configured (port 0) `main` sets the port by model:
18600 for mobile, 9000 for media, media-header, cnm-classic, swann-media and
swann-dvr8, 6036 for qt504, 8888 for dvr8104-mobile, 1115 for visionari and 80
for meye; a port that is not 0 is left as it is, with the rest of the
configuration, for every model; and the model is never changed. -/
theorem defaultPort_table (g : GlobalArgs) :
    (g.port = 0 →
      (g.model = CameraModel.mobile → (defaultPort g).port = 18600)
      ∧ (g.model = CameraModel.media → (defaultPort g).port = 9000)
      ∧ (g.model = CameraModel.media_header → (defaultPort g).port = 9000)
      ∧ (g.model = CameraModel.cnmclassic → (defaultPort g).port = 9000)
      ∧ (g.model = CameraModel.swannmedia → (defaultPort g).port = 9000)
      ∧ (g.model = CameraModel.swanndvr8 → (defaultPort g).port = 9000)
      ∧ (g.model = CameraModel.qt504 → (defaultPort g).port = 6036)
      ∧ (g.model = CameraModel.dvr8104_mobile → (defaultPort g).port = 8888)
      ∧ (g.model = CameraModel.visionari → (defaultPort g).port = 1115)
      ∧ (g.model = CameraModel.meye → (defaultPort g).port = 80))
    ∧ (g.port ≠ 0 → defaultPort g = g)
    ∧ (defaultPort g).model = g.model := by
  refine ⟨?_, ?_, ?_⟩
  · intro hp
    refine ⟨?_, ?_, ?_, ?_, ?_, ?_, ?_, ?_, ?_, ?_⟩ <;> intro hm <;> simp [defaultPort, hp, hm]
  · intro hp
    simp [defaultPort, hp]
  · unfold defaultPort
    split_ifs
    · cases hm : g.model <;> simp
    · rfl

/-- Witness of C23: the model qt504 with no port configured. -/
theorem defaultPort_table_witness :
    (defaultPort { defaultArgs with model := CameraModel.qt504 }).port = 6036 :=
  (defaultPort_table { defaultArgs with model := CameraModel.qt504 }).1 rfl
    |>.2.2.2.2.2.2.1 rfl

/-! ## One socket and one sink -/

theorem sigHandler_ne_zero (sig : Signal) (f : Int) : sigHandler sig f ≠ 0 := by
  cases sig <;> simp [sigHandler]

theorem step_socketFree (g : GlobalArgs) (mach : Machine) (ch : Nat) (w : Worker) (i : Input)
    (h : socketFree w) : socketFree (step g mach ch w i).1 := by
  obtain ⟨pc, sockFd, outPipe, flag⟩ := w
  obtain ⟨h1, h2, h3, h4, h5⟩ := h
  simp only at h1 h2 h3 h4 h5
  cases i with
  | signal sig =>
    have hs := sigHandler_ne_zero sig flag
    cases pc <;> simp only [step] <;> first
      | (split_ifs <;> simp_all [socketFree])
      | simp_all [socketFree]
  | go a =>
    cases pc <;> simp only [step]
    case streamTest =>
      by_cases hs : sockFd = -1 <;> by_cases hf : flag = 0 <;> simp [socketFree, hs, hf]
    case streaming =>
      by_cases hr : recvRet 2048 [a.reply] ≤ 0
      · simp [hr, socketFree]
      · simp only [hr, if_false, relay]
        split_ifs <;> simp [socketFree]
    all_goals first
      | (split_ifs <;> simp_all [socketFree])
      | simp_all [socketFree]

theorem run_socketFree (g : GlobalArgs) (mach : Machine) (ch : Nat) (inputs : List Input)
    (w : Worker) (h : socketFree w) : socketFree (run g mach ch inputs w).1 := by
  induction inputs generalizing w with
  | nil => simpa [run] using h
  | cons i rest ih => exact ih _ (step_socketFree g mach ch w i h)

theorem killChildren_kills (g : GlobalArgs) :
    ∀ c ∈ killChildren g, ∃ p s, c = Call.kill p s := by
  intro c hc
  simp only [killChildren, List.mem_filterMap] at hc
  obtain ⟨j, _, hj⟩ := hc
  split_ifs at hj
  cases hj
  exact ⟨_, _, rfl⟩

theorem step_socket_only_when_free (g : GlobalArgs) (mach : Machine) (ch : Nat) (w : Worker)
    (i : Input) (h : socketFree w) (fd : Int) (hc : Call.socket fd ∈ (step g mach ch w i).2) :
    w.sockFd = -1 := by
  obtain ⟨pc, sockFd, outPipe, flag⟩ := w
  cases i with
  | signal sig =>
    cases pc <;> simp only [step] at hc <;> first
      | (split_ifs at hc <;> simp at hc)
      | simp at hc
  | go a =>
    cases pc
    case connecting => exact h.2.1 rfl
    case streaming =>
      simp only [step] at hc
      by_cases hr : recvRet 2048 [a.reply] ≤ 0
      · simp [hr] at hc
      · simp only [hr, if_false, relay] at hc
        split_ifs at hc <;> simp at hc
    case cleanup =>
      simp only [step, List.mem_append, List.mem_cons, List.mem_singleton, List.not_mem_nil,
        or_false] at hc
      rcases hc with ((hc | hc | hc) | hc) | hc
      · cases hc
      · cases hc
      · cases hc
      · obtain ⟨p, s, hk⟩ := killChildren_kills g _ hc
        cases hk
      · cases hc
    all_goals simp only [step] at hc
    all_goals first
      | (split_ifs at hc <;> simp at hc)
      | simp at hc

theorem step_openSink_only_when_closed (g : GlobalArgs) (mach : Machine) (ch : Nat) (w : Worker)
    (i : Input) (p : List Nat) (fd : Int)
    (hc : Call.openSink p fd ∈ (step g mach ch w i).2) : w.outPipe = -1 := by
  obtain ⟨pc, sockFd, outPipe, flag⟩ := w
  cases i with
  | signal sig =>
    cases pc <;> simp only [step] at hc <;> first
      | (split_ifs at hc <;> simp at hc)
      | simp at hc
  | go a =>
    cases pc
    case streaming =>
      simp only [step] at hc
      by_cases hr : recvRet 2048 [a.reply] ≤ 0
      · simp [hr] at hc
      · simp only [hr, if_false, relay] at hc
        split_ifs at hc with h1 <;> simp at hc <;> exact h1
    case cleanup =>
      simp only [step, List.mem_append, List.mem_cons, List.mem_singleton, List.not_mem_nil,
        or_false] at hc
      rcases hc with ((hc | hc | hc) | hc) | hc
      · cases hc
      · cases hc
      · cases hc
      · obtain ⟨p, s, hk⟩ := killChildren_kills g _ hc
        cases hk
      · cases hc
    all_goals simp only [step] at hc
    all_goals first
      | (split_ifs at hc <;> simp at hc)
      | simp at hc

theorem step_socket_released_by_close (g : GlobalArgs) (mach : Machine) (ch : Nat) (w : Worker)
    (i : Input) (h : socketFree w) (hs : w.sockFd ≠ -1)
    (hd : (step g mach ch w i).1.sockFd ≠ w.sockFd) :
    Call.close w.sockFd ∈ (step g mach ch w i).2 := by
  obtain ⟨pc, sockFd, outPipe, flag⟩ := w
  simp only at hs
  cases i with
  | signal sig =>
    cases pc <;> simp only [step] at hd <;> first
      | (split_ifs at hd <;> simp at hd)
      | simp at hd
  | go a =>
    cases pc
    case connecting => exact absurd (h.2.1 rfl) hs
    case streaming =>
      simp only [step] at hd ⊢
      by_cases hr : recvRet 2048 [a.reply] ≤ 0
      · simp [hr]
      · simp only [hr, if_false, relay] at hd ⊢
        split_ifs at hd ⊢ <;> simp at hd ⊢
    all_goals simp only [step] at hd ⊢
    all_goals first
      | (split_ifs at hd ⊢ <;> simp at hd ⊢)
      | simp at hd ⊢

theorem step_sink_released_by_close (g : GlobalArgs) (mach : Machine) (ch : Nat) (w : Worker)
    (i : Input) (hs : w.outPipe ≠ -1)
    (hd : (step g mach ch w i).1.outPipe ≠ w.outPipe) :
    Call.close w.outPipe ∈ (step g mach ch w i).2 := by
  obtain ⟨pc, sockFd, outPipe, flag⟩ := w
  simp only at hs
  cases i with
  | signal sig =>
    cases pc <;> simp only [step] at hd <;> first
      | (split_ifs at hd <;> simp at hd)
      | simp at hd
  | go a =>
    cases pc
    case streaming =>
      simp only [step] at hd ⊢
      by_cases hr : recvRet 2048 [a.reply] ≤ 0
      · simp [hr] at hd
      · simp only [hr, if_false, relay, if_neg hs] at hd ⊢
        split_ifs at hd ⊢ <;> simp at hd ⊢
    all_goals simp only [step] at hd ⊢
    all_goals first
      | (split_ifs at hd ⊢ <;> simp at hd ⊢)
      | simp at hd ⊢

theorem socketFree_workerStart (f : Int) : socketFree (workerStart f) := by
  simp [socketFree, workerStart]

/-- C24: in every state a Worker reaches from its start, whatever the results
of its calls and whatever signals arrive, the next step calls `socket` only
when the socket handle is -1 and opens the sink only when the sink handle is
-1; and a step that changes a handle that is not -1 closes the old descriptor.
So the handle of the socket and the handle of the sink each stand for the one
descriptor that is open. -/
theorem one_socket_one_sink (g : GlobalArgs) (mach : Machine) (ch : Nat) (f : Int)
    (inputs : List Input) (i : Input) :
    (∀ fd, Call.socket fd ∈ (step g mach ch (run g mach ch inputs (workerStart f)).1 i).2 →
      (run g mach ch inputs (workerStart f)).1.sockFd = -1)
    ∧ (∀ p fd,
        Call.openSink p fd ∈ (step g mach ch (run g mach ch inputs (workerStart f)).1 i).2 →
        (run g mach ch inputs (workerStart f)).1.outPipe = -1)
    ∧ ((run g mach ch inputs (workerStart f)).1.sockFd ≠ -1 →
        (step g mach ch (run g mach ch inputs (workerStart f)).1 i).1.sockFd
          ≠ (run g mach ch inputs (workerStart f)).1.sockFd →
        Call.close (run g mach ch inputs (workerStart f)).1.sockFd
          ∈ (step g mach ch (run g mach ch inputs (workerStart f)).1 i).2)
    ∧ ((run g mach ch inputs (workerStart f)).1.outPipe ≠ -1 →
        (step g mach ch (run g mach ch inputs (workerStart f)).1 i).1.outPipe
          ≠ (run g mach ch inputs (workerStart f)).1.outPipe →
        Call.close (run g mach ch inputs (workerStart f)).1.outPipe
          ∈ (step g mach ch (run g mach ch inputs (workerStart f)).1 i).2) := by
  have hfree := run_socketFree g mach ch inputs (workerStart f) (socketFree_workerStart f)
  exact ⟨fun fd hc => step_socket_only_when_free g mach ch _ i hfree fd hc,
    fun p fd hc => step_openSink_only_when_closed g mach ch _ i p fd hc,
    fun hs hd => step_socket_released_by_close g mach ch _ i hfree hs hd,
    fun hs hd => step_sink_released_by_close g mach ch _ i hs hd⟩

/-- Witness of C24: a Worker that has created its path and tested the flag
calls `socket`, and its socket handle is -1. -/
theorem one_socket_one_sink_witness :
    Call.socket 3 ∈ (step oneChannel plainMachine 0
        (run oneChannel plainMachine 0 [Input.go quiet, Input.go quiet] (workerStart 0)).1
        (Input.go quiet)).2
    ∧ (run oneChannel plainMachine 0 [Input.go quiet, Input.go quiet] (workerStart 0)).1.sockFd
        = -1 :=
  ⟨by decide,
   (one_socket_one_sink oneChannel plainMachine 0 0 [Input.go quiet, Input.go quiet]
     (Input.go quiet)).1 3 (by decide)⟩

/-! ## A failed write -/

/-- C25: in the stream loop, when a frame has arrived, the sink is open (or
has just been opened) and `write` returns -1 with an `errno` that is neither
EAGAIN nor EWOULDBLOCK, the step closes the sink and the socket and sets both
handles to -1.  The Worker then leaves the stream loop and, unless a terminate
request is pending, comes back to the connect without ending and without any
further call: directly when the flag is 0, through the reset when the flag is
2 or 3, and so also when SIGPIPE has come with the failed write.  The sink is
opened again only lazily: no step of the connect or of the handshake opens it,
and the step of the stream loop opens it exactly when a frame has arrived. -/
theorem write_failure_closes_both (g : GlobalArgs) (mach : Machine) (ch : Nat) (w : Worker)
    (a a1 a2 a3 a4 a5 : Answer)
    (hpc : w.pc = PC.streaming) (hread : 0 < recvRet 2048 [a.reply])
    (hsink : (if w.outPipe = -1 then a.fd else w.outPipe) ≠ -1)
    (hw : a.written = none) (he : a.errno ≠ Errno.EAGAIN ∧ a.errno ≠ Errno.EWOULDBLOCK) :
    step g mach ch w (Input.go a)
      = ({ pc := PC.streamTest, sockFd := -1, outPipe := -1, g_cleanUp := w.g_cleanUp },
         [Call.recv w.sockFd (recvRet 2048 [a.reply])]
          ++ (if w.outPipe = -1 then [Call.openSink (pipename g ch) a.fd] else [])
          ++ [Call.write (if w.outPipe = -1 then a.fd else w.outPipe) (streamFrame a.reply) (-1)]
          ++ [Call.close (if w.outPipe = -1 then a.fd else w.outPipe), Call.close w.sockFd])
    ∧ (w.g_cleanUp = 0 →
        run g mach ch [Input.go a1, Input.go a2, Input.go a3]
          { pc := PC.streamTest, sockFd := -1, outPipe := -1, g_cleanUp := w.g_cleanUp }
        = ({ pc := PC.connecting, sockFd := -1, outPipe := -1, g_cleanUp := 0 }, []))
    ∧ (w.g_cleanUp = 2 ∨ w.g_cleanUp = 3 →
        run g mach ch [Input.go a1, Input.go a2, Input.go a3, Input.go a4, Input.go a5]
          { pc := PC.streamTest, sockFd := -1, outPipe := -1, g_cleanUp := w.g_cleanUp }
        = ({ pc := PC.connecting, sockFd := -1, outPipe := -1, g_cleanUp := 0 }, []))
    ∧ run g mach ch [Input.signal Signal.SIGPIPE, Input.go a1, Input.go a2, Input.go a3,
          Input.go a4, Input.go a5]
          { pc := PC.streamTest, sockFd := -1, outPipe := -1, g_cleanUp := w.g_cleanUp }
        = ({ pc := PC.connecting, sockFd := -1, outPipe := -1, g_cleanUp := 0 }, [])
    ∧ (∀ (v : Worker) (b : Answer), v.outPipe = -1 →
        (v.pc = PC.connecting ∨ v.pc = PC.handshaking) →
        (step g mach ch v (Input.go b)).1.outPipe = -1
        ∧ ∀ p fd, Call.openSink p fd ∉ (step g mach ch v (Input.go b)).2)
    ∧ (∀ (v : Worker) (b : Answer), v.outPipe = -1 → v.pc = PC.streaming →
        (Call.openSink (pipename g ch) b.fd ∈ (step g mach ch v (Input.go b)).2
          ↔ 0 < recvRet 2048 [b.reply])) := by
  obtain ⟨pc, sockFd, outPipe, flag⟩ := w
  simp only at hpc hsink
  subst hpc
  have hr : ¬ recvRet 2048 [a.reply] ≤ 0 := by omega
  have he2 : ¬ (a.errno = Errno.EAGAIN ∨ a.errno = Errno.EWOULDBLOCK) := by
    rintro (h | h)
    · exact he.1 h
    · exact he.2 h
  refine ⟨?_, ?_, ?_, ?_, ?_, ?_⟩
  · simp only [step, hr, if_false, relay, hw, writeRet]
    rw [if_pos hsink, if_pos trivial, if_neg he2]
  · intro hf
    simp only at hf
    subst hf
    simp [run, step]
  · intro hf
    simp only at hf
    rcases hf with hf | hf <;> subst hf <;> simp [run, step]
  · simp [run, step, workerHandles, sigHandler]
  · intro v b ho hpc
    obtain ⟨pc, sockFd, outPipe, flag⟩ := v
    simp only at ho hpc
    subst ho
    rcases hpc with h | h <;> subst h <;> simp only [step] <;> split_ifs <;> simp
  · intro v b ho hpc
    obtain ⟨pc, sockFd, outPipe, flag⟩ := v
    simp only at ho hpc
    subst ho hpc
    simp only [step]
    by_cases hr : recvRet 2048 [b.reply] ≤ 0
    · simp [hr]
    · simp only [hr, if_false, relay]
      split_ifs <;> simp <;> omega

/-- Witness of C25: socket 5, sink 6, a frame of two bytes, EPIPE. -/
theorem write_failure_closes_both_witness :
    step oneChannel plainMachine 0
      { pc := PC.streaming, sockFd := 5, outPipe := 6, g_cleanUp := 0 }
      (Input.go { quiet with reply := Reply.data [1, 2], errno := Errno.EPIPE })
    = ({ pc := PC.streamTest, sockFd := -1, outPipe := -1, g_cleanUp := 0 },
       [Call.recv 5 (recvRet 2048 [Reply.data [1, 2]])]
        ++ (if (6 : Int) = -1 then [Call.openSink (pipename oneChannel 0) 3] else [])
        ++ [Call.write (if (6 : Int) = -1 then 3 else 6) (streamFrame (Reply.data [1, 2])) (-1)]
        ++ [Call.close (if (6 : Int) = -1 then 3 else 6), Call.close 5]) :=
  (write_failure_closes_both oneChannel plainMachine 0
    { pc := PC.streaming, sockFd := 5, outPipe := 6, g_cleanUp := 0 }
    { quiet with reply := Reply.data [1, 2], errno := Errno.EPIPE } quiet quiet quiet quiet quiet
    rfl (by decide) (by decide) rfl ⟨by decide, by decide⟩).1

/-! ## A failed handshake -/

/-- C26: when the handshake procedure of the model returns a value other than
0, the step of the Worker makes that one handshake, closes the socket and ends
the process with status 1: it calls neither `unlink` nor `close` on the sink,
the sink handle stays as it is, and the Worker makes no further call, so no
second handshake and no second connect. -/
theorem handshake_failure_ends_worker (g : GlobalArgs) (mach : Machine) (ch : Nat) (w : Worker) (a : Answer)
    (hpc : w.pc = PC.handshaking)
    (hfail : (pConnectFunc g.model g mach (connected a.accept a.replies) ch).1 ≠ 0) :
    step g mach ch w (Input.go a)
      = ({ pc := PC.done 1, sockFd := -1, outPipe := w.outPipe, g_cleanUp := w.g_cleanUp },
         [Call.handshake (pConnectFunc g.model g mach (connected a.accept a.replies) ch).1,
          Call.close w.sockFd, Call.exitProcess 1])
    ∧ (∀ inputs : List Input,
        run g mach ch inputs
          { pc := PC.done 1, sockFd := -1, outPipe := w.outPipe, g_cleanUp := w.g_cleanUp }
        = ({ pc := PC.done 1, sockFd := -1, outPipe := w.outPipe, g_cleanUp := w.g_cleanUp },
           [])) := by
  obtain ⟨pc, sockFd, outPipe, flag⟩ := w
  simp only at hpc
  subst hpc
  refine ⟨by simp [step, hfail], ?_⟩
  intro inputs
  induction inputs with
  | nil => rfl
  | cons i rest ih =>
    cases i <;> simp [run, step, ih]

/-- Witness of C26: the model mobile against a peer that never replies. -/
theorem handshake_failure_ends_worker_witness :
    step { oneChannel with model := CameraModel.mobile } plainMachine 0
      { pc := PC.handshaking, sockFd := 5, outPipe := -1, g_cleanUp := 0 } (Input.go quiet)
    = ({ pc := PC.done 1, sockFd := -1, outPipe := -1, g_cleanUp := 0 },
       [Call.handshake (pConnectFunc CameraModel.mobile
          { oneChannel with model := CameraModel.mobile } plainMachine
          (connected quiet.accept quiet.replies) 0).1,
        Call.close 5, Call.exitProcess 1]) :=
  (handshake_failure_ends_worker { oneChannel with model := CameraModel.mobile } plainMachine 0
    { pc := PC.handshaking, sockFd := 5, outPipe := -1, g_cleanUp := 0 } quiet rfl
    (by decide)).1

/-! ## The receive lengths of `ConnectViaMobile` -/

/-- C27, on the code: `ConnectViaMobile` receives into `recvBuf`, which has
128 bytes, as many bytes as the peer names.  When the first reply is the
header 00 00 01 00 the second `recv` asks for 256 bytes, and the peer delivers
256; when the third reply ends in the byte 0xFF the fourth `recv` asks for 255
bytes, and the peer delivers 255. -/
theorem ConnectViaMobile_receive_overruns_buffer :
    recvLens (ConnectViaMobile defaultArgs plainMachine
      (connected [some 68] [Reply.data [0, 0, 1, 0], Reply.data (List.replicate 256 1)]) 0).2.log
      = [4, 256, 4]
    ∧ recvRets (ConnectViaMobile defaultArgs plainMachine
      (connected [some 68] [Reply.data [0, 0, 1, 0], Reply.data (List.replicate 256 1)]) 0).2.log
      = [4, 256, -1]
    ∧ recvLens (ConnectViaMobile defaultArgs plainMachine
      (connected [some 68]
        [Reply.data [0, 0, 0, 20], Reply.data (List.replicate 20 1),
         Reply.data [0, 0, 0, 255], Reply.data (List.replicate 255 1)]) 0).2.log
      = [4, 20, 4, 255, 27]
    ∧ recvRets (ConnectViaMobile defaultArgs plainMachine
      (connected [some 68]
        [Reply.data [0, 0, 0, 20], Reply.data (List.replicate 20 1),
         Reply.data [0, 0, 0, 255], Reply.data (List.replicate 255 1)]) 0).2.log
      = [4, 20, 4, 255, -1] := by
  decide

/-! ## The third packet of `ConnectQT504` -/

theorem qt504SuppBuf_frame : (frame qt504SuppBuf 88).take 60 =
    [0x31, 0x31, 0x31, 0x31, 0x50, 0, 0, 0, 0x03, 0x04, 0, 0, 0xF0, 0xB7, 0x3D, 0x08,
     0x03, 0, 0, 0, 0x40, 0, 0, 0, 0, 0xF8, 0, 0, 0, 0, 0, 0,
     0x01, 0xF8, 0, 0, 0, 0, 0, 0, 0x02, 0xF8, 0, 0, 0, 0, 0, 0,
     0x03, 0xF8, 0, 0, 0, 0, 0, 0, 0x40, 0xF8, 0, 0] := by
  decide

theorem qt504ChannelBuf_frame (c : Nat) (hc : c < 16) : frame (qt504ChannelBuf c) 60 =
    [0x31, 0x31, 0x31, 0x31, 0x34, 0, 0, 0, 0x01, 0x02, 0, 0, 0xF0, 0xB7, 0x3D, 0x08,
     0x03, 0, 0, 0, 0x24, 0, 0, 0, 0, 0xF8, 0, 0, 0, 0, 0, 0,
     0x01, 0xF8, 0, 0, 2 ^ c / 256, 2 ^ c % 256, 0, 0, 0x02, 0xF8, 0, 0, 0, 0, 0, 0,
     0x03, 0xF8, 0, 0, 2 ^ c / 256, 2 ^ c % 256, 0, 0, 0x40, 0xF8, 0, 0] := by
  have h2c : 2 ^ c ≤ 32768 := by
    interval_cases c <;> norm_num
  have h1 : 2 ^ c / 256 % 256 = 2 ^ c / 256 :=
    Nat.mod_eq_of_lt (by interval_cases c <;> norm_num)
  simp [frame, List.range_succ, qt504ChannelBuf, qt504SuppBuf, poke, pokeShort, zeroed, h1]

/-- C28: for every channel c in 0..15 `ConnectQT504` sends as its second and
third packets the 88 bytes of the login buffer and then its first 60 bytes,
changed in place; the third packet equals the first 60 bytes of the second at
every offset other than 4, 8, 9, 20, 36, 37, 52 and 53, where it holds 0x34,
0x01, 0x02, 0x24 and twice the big-endian 16-bit value of 1 << c; so it still
holds F0 B7 3D 08 03 at 12-16, F8 at 25, 01 F8 at 32-33, 02 F8 at 40-41,
03 F8 at 48-49 and 40 F8 at 56-57. -/
theorem ConnectQT504_third_packet_reuses_second (g : GlobalArgs) (mach : Machine)
    (accept : List (Option Nat)) (replies : List Reply) (c : Nat) (hc : c < 16) :
    (sentFrames (ConnectQT504 g mach (connected accept replies) c).2.log).drop 1
      = [frame qt504SuppBuf 88, frame (qt504ChannelBuf c) 60]
    ∧ (∀ i, i < 60 → i ∉ [4, 8, 9, 20, 36, 37, 52, 53] →
        (frame (qt504ChannelBuf c) 60).getD i 0 = (frame qt504SuppBuf 88).getD i 0)
    ∧ frame (qt504ChannelBuf c) 60 =
      [0x31, 0x31, 0x31, 0x31, 0x34, 0, 0, 0, 0x01, 0x02, 0, 0, 0xF0, 0xB7, 0x3D, 0x08,
       0x03, 0, 0, 0, 0x24, 0, 0, 0, 0, 0xF8, 0, 0, 0, 0, 0, 0,
       0x01, 0xF8, 0, 0, 2 ^ c / 256, 2 ^ c % 256, 0, 0, 0x02, 0xF8, 0, 0, 0, 0, 0, 0,
       0x03, 0xF8, 0, 0, 2 ^ c / 256, 2 ^ c % 256, 0, 0, 0x40, 0xF8, 0, 0]
    ∧ (frame qt504SuppBuf 88).take 60 =
      [0x31, 0x31, 0x31, 0x31, 0x50, 0, 0, 0, 0x03, 0x04, 0, 0, 0xF0, 0xB7, 0x3D, 0x08,
       0x03, 0, 0, 0, 0x40, 0, 0, 0, 0, 0xF8, 0, 0, 0, 0, 0, 0,
       0x01, 0xF8, 0, 0, 0, 0, 0, 0, 0x02, 0xF8, 0, 0, 0, 0, 0, 0,
       0x03, 0xF8, 0, 0, 0, 0, 0, 0, 0x40, 0xF8, 0, 0] := by
  refine ⟨?_, ?_, qt504ChannelBuf_frame c hc, qt504SuppBuf_frame⟩
  · rw [ConnectQT504_sentFrames]
    rfl
  · intro i hi hn
    have e2 : (frame qt504SuppBuf 88).getD i 0
        = ((frame qt504SuppBuf 88).take 60).getD i 0 := by
      simp [List.getD_eq_getElem?_getD, List.getElem?_take, hi]
    rw [e2, qt504ChannelBuf_frame c hc, qt504SuppBuf_frame]
    simp only [List.mem_cons, List.mem_singleton, List.not_mem_nil, or_false, not_or] at hn
    interval_cases i <;> first | rfl | omega

/-- Witness of C28: channel 3, whose third packet has 00 08 at 36-37. -/
theorem ConnectQT504_third_packet_reuses_second_witness :
    (frame (qt504ChannelBuf 3) 60).getD 25 0 = (frame qt504SuppBuf 88).getD 25 0 :=
  (ConnectQT504_third_packet_reuses_second defaultArgs plainMachine [] [] 3 (by decide)).2.1
    25 (by decide) (by decide)

/-! ## The username field of `ConnectDVR8104ViaMobile` -/

theorem dvr_byte (g : GlobalArgs) (c : Nat) (i : Nat) (h1 : 60 ≤ i) (h2 : i < 92) :
    dvr8104LoginBuf g c i
      = if i < 60 + g.username.length then g.username.getD (i - 60) 0 % 256
        else if i = 60 + g.username.length then 0
        else if i = 64 then 0x6e
        else if i = 91 then 0x6e
        else 0 := by
  simp only [dvr8104LoginBuf]
  rw [strcpy_of_lt (by omega)]
  simp only [strcpy, h1, true_and]
  split_ifs with ha hb hc hd
  · rfl
  · rfl
  · subst hc
    simp [poke, zeroed]
  · subst hd
    simp [poke, zeroed]
  · have e1 : i ≠ 64 := hc
    have e2 : i ≠ 91 := hd
    simp only [poke, zeroed]
    have : ∀ k, k < 60 ∨ 92 ≤ k → i ≠ k := fun k hk => by omega
    simp [e1, e2, this]

/-- C29 as stated fails: with a username of 32 bytes (and the default
password "admin") the username fills bytes 60 to 91 of the login frame of
`ConnectDVR8104ViaMobile`, but the byte after its last byte, byte 92, is not
0x00: it is 0x61, the first byte of the password, which is copied after the
username. -/
theorem dvr8104_long_username_loses_terminator :
    (sentFrames (ConnectDVR8104ViaMobile
        { defaultArgs with username := List.replicate 32 117 } plainMachine
        (connected [] []) 0).2.log).map (fun F => (F.getD 91 0, F.getD (60 + 32) 0, F.getD 93 0))
      = [(117, 97, 100)] := by
  decide

/-- C29, amended: the login frame of `ConnectDVR8104ViaMobile` has 116 bytes;
its byte 64 is 0x6E exactly when the username has at most 3 bytes or its fifth
byte is 0x6E; for a username of 4 bytes byte 64 is 0x00; and for a username of
5 to 31 bytes the bytes from 60 on hold the whole username, so bytes 64 onward
hold its fifth and later bytes, followed by 0x00. -/
theorem dvr8104_username_overruns_field (g : GlobalArgs) (mach : Machine)
    (accept : List (Option Nat)) (replies : List Reply) (c : Nat)
    (hb : ∀ b ∈ g.username, b < 256) :
    sentFrames (ConnectDVR8104ViaMobile g mach (connected accept replies) c).2.log
      = [frame (dvr8104LoginBuf g c) 116]
    ∧ (frame (dvr8104LoginBuf g c) 116).length = 116
    ∧ ((frame (dvr8104LoginBuf g c) 116).getD 64 0 = 0x6E
        ↔ (g.username.length ≤ 3 ∨ (5 ≤ g.username.length ∧ g.username.getD 4 0 = 0x6E)))
    ∧ (g.username.length = 4 → (frame (dvr8104LoginBuf g c) 116).getD 64 0 = 0)
    ∧ (5 ≤ g.username.length → g.username.length ≤ 31 →
        (∀ j, j < g.username.length →
          (frame (dvr8104LoginBuf g c) 116).getD (60 + j) 0 = g.username.getD j 0)
        ∧ (frame (dvr8104LoginBuf g c) 116).getD (60 + g.username.length) 0 = 0) := by
  have hlt : ∀ j, g.username.getD j 0 % 256 = g.username.getD j 0 := fun j =>
    Nat.mod_eq_of_lt (getD_lt_of_forall_lt g.username j hb)
  refine ⟨ConnectDVR8104ViaMobile_sentFrames g mach accept replies c, frame_length _ _, ?_, ?_, ?_⟩
  · rw [frame_getD, if_pos (by omega), dvr_byte g c 64 (by omega) (by omega)]
    constructor
    · intro h
      by_cases h3 : g.username.length ≤ 3
      · exact Or.inl h3
      · right
        by_cases h4 : g.username.length = 4
        · rw [if_neg (by omega), if_pos (by omega)] at h
          omega
        · rw [if_pos (by omega), hlt] at h
          exact ⟨by omega, h⟩
    · rintro (h | ⟨h5, hn⟩)
      · rw [if_neg (by omega), if_neg (by omega), if_pos rfl]
      · rw [if_pos (by omega), hlt]
        exact hn
  · intro h4
    rw [frame_getD, if_pos (by omega), dvr_byte g c 64 (by omega) (by omega),
      if_neg (by omega), if_pos (by omega)]
  · intro h5 h31
    refine ⟨?_, ?_⟩
    · intro j hj
      rw [frame_getD, if_pos (by omega), dvr_byte g c (60 + j) (by omega) (by omega),
        if_pos (by omega), hlt]
      simp
    · rw [frame_getD, if_pos (by omega), dvr_byte g c _ (by omega) (by omega),
        if_neg (by omega), if_pos rfl]

/-- Witness of C29: the default username "admin", whose fifth byte is 0x6E. -/
theorem dvr8104_username_overruns_field_witness :
    (∀ b ∈ defaultArgs.username, b < 256)
    ∧ (frame (dvr8104LoginBuf defaultArgs 0) 116).getD 64 0 = 0x6E :=
  ⟨by decide,
   (dvr8104_username_overruns_field defaultArgs plainMachine [] [] 0 (by decide)).2.2.1.mpr
     (Or.inr ⟨by decide, by decide⟩)⟩

end Zmodopipe
